import Mathlib

/-!
# chatgpt-cli: a shallow embedding of `main.go`

The program reads an API key from the environment, joins its command-line
arguments into a prompt, posts one chat-completion request and prints the
first choice of the reply.

Go strings and byte slices are finite byte sequences; they are modelled as
lists of byte values (`List Nat`).  The library calls of `main` that are pure
(`strings.Join`, `json.Marshal`, `fmt.Fprintln`, ...) are modelled by their
documented behaviour; the ones that talk to the outside (`godotenv.Load`,
`os.Getenv`, `http.Client.Do`, the JSON decoding of the response stream) are
fields of a `World` over which every theorem quantifies.
-/

namespace ChatGptCli

/-! ## Strings -/

/-- A Go `string` or `[]byte`: the sequence of its byte values. -/
abbrev GoString := List Nat

/-- Bytes of an ASCII string literal of the source. -/
def lit (s : String) : GoString := s.toList.map Char.toNat

/-- Go's `strings.Join(elems, sep)`: no element gives the empty string, one
element is returned as is, otherwise the first element is written and then,
for each later element, the separator followed by the element. -/
def stringsJoin (elems : List GoString) (sep : GoString) : GoString :=
  match elems with
  | [] => []
  | [e] => e
  | e :: rest => rest.foldl (fun b s => b ++ sep ++ s) e

/-- Go's `fmt.Sprintln` on string operands: the operands separated by single
spaces, then a newline (`fmt.Fprintln` writes exactly these bytes). -/
def fmtSprintln (operands : List GoString) : GoString :=
  stringsJoin operands (lit " ") ++ lit "\n"

/-! ## UTF-8 (Go package `unicode/utf8`) -/

/-- Go's `utf8.RuneError`, U+FFFD. -/
def RuneError : Nat := 0xFFFD

/-- Go's `utf8.RuneSelf`: bytes below it are single-byte runes. -/
def RuneSelf : Nat := 0x80

/-- Go's `utf8.first` table, given by ranges of the first byte.  The high
nibble indexes `acceptRanges` (or is `F` for the one-byte cases), the low
nibble is the length (or, for the one-byte cases, 0 for ASCII, 1 for
invalid). -/
def first (b : Nat) : Nat :=
  if b < 0x80 then 0xF0        -- as
  else if b < 0xC2 then 0xF1   -- xx
  else if b < 0xE0 then 0x02   -- s1
  else if b = 0xE0 then 0x13   -- s2
  else if b < 0xED then 0x03   -- s3
  else if b = 0xED then 0x23   -- s4
  else if b < 0xF0 then 0x03   -- s3
  else if b = 0xF0 then 0x34   -- s5
  else if b < 0xF4 then 0x04   -- s6
  else if b = 0xF4 then 0x44   -- s7
  else 0xF1                    -- xx

/-- Go's `utf8.acceptRanges`: the allowed range of the second byte. -/
def acceptRanges (i : Nat) : Nat × Nat :=
  match i with
  | 0 => (0x80, 0xBF)
  | 1 => (0xA0, 0xBF)
  | 2 => (0x80, 0x9F)
  | 3 => (0x90, 0xBF)
  | 4 => (0x80, 0x8F)
  | _ => (0, 0)

/-- Go's `utf8.DecodeRune` / `utf8.DecodeRuneInString`: the first rune of `s`
and its width in bytes; `(RuneError, 0)` on empty input and `(RuneError, 1)`
on an invalid encoding. -/
def DecodeRune (s : GoString) : Nat × Nat :=
  match s with
  | [] => (RuneError, 0)
  | s0 :: t =>
    let x := first s0
    if x ≥ 0xF0 then
      -- the mask trick of the source: the low bit of `x` selects RuneError
      if x % 2 = 1 then (RuneError, 1) else (s0, 1)
    else
      let sz := x &&& 7
      let accept := acceptRanges (x >>> 4)
      if s.length < sz then (RuneError, 1)
      else
        match t with
        | [] => (RuneError, 1)
        | s1 :: t1 =>
          if s1 < accept.1 ∨ accept.2 < s1 then (RuneError, 1)
          else if sz ≤ 2 then (((s0 &&& 0x1F) <<< 6) ||| (s1 &&& 0x3F), 2)
          else
            match t1 with
            | [] => (RuneError, 1)
            | s2 :: t2 =>
              if s2 < 0x80 ∨ 0xBF < s2 then (RuneError, 1)
              else if sz ≤ 3 then
                (((s0 &&& 0x0F) <<< 12) ||| ((s1 &&& 0x3F) <<< 6) ||| (s2 &&& 0x3F), 3)
              else
                match t2 with
                | [] => (RuneError, 1)
                | s3 :: _ =>
                  if s3 < 0x80 ∨ 0xBF < s3 then (RuneError, 1)
                  else
                    (((s0 &&& 0x07) <<< 18) ||| ((s1 &&& 0x3F) <<< 12)
                      ||| ((s2 &&& 0x3F) <<< 6) ||| (s3 &&& 0x3F), 4)

/-- Go's `utf8.AppendRune(nil, r)` for a non-negative rune: the UTF-8 encoding
of `r`, with surrogates and values above `MaxRune` encoded as `RuneError`.
`byte(x)` is `x % 256`. -/
def EncodeRune (r : Nat) : GoString :=
  if r ≤ 0x7F then [r % 256]
  else if r ≤ 0x7FF then [0xC0 ||| ((r >>> 6) % 256), 0x80 ||| ((r % 256) &&& 0x3F)]
  else
    let r := if r > 0x10FFFF ∨ (0xD800 ≤ r ∧ r ≤ 0xDFFF) then RuneError else r
    if r ≤ 0xFFFF then
      [0xE0 ||| ((r >>> 12) % 256), 0x80 ||| (((r >>> 6) % 256) &&& 0x3F),
        0x80 ||| ((r % 256) &&& 0x3F)]
    else
      [0xF0 ||| ((r >>> 18) % 256), 0x80 ||| (((r >>> 12) % 256) &&& 0x3F),
        0x80 ||| (((r >>> 6) % 256) &&& 0x3F), 0x80 ||| ((r % 256) &&& 0x3F)]

/-- The width of the well-formed UTF-8 byte sequence at the head of `s`, by
the Unicode standard's table of well-formed byte sequences; 0 if `s` does not
start with one. -/
def seqWidth (s : GoString) : Nat :=
  match s with
  | [] => 0
  | b0 :: rest =>
    if b0 < 0x80 then 1
    else if 0xC2 ≤ b0 ∧ b0 ≤ 0xDF then
      match rest with
      | b1 :: _ => if 0x80 ≤ b1 ∧ b1 ≤ 0xBF then 2 else 0
      | _ => 0
    else if 0xE0 ≤ b0 ∧ b0 ≤ 0xEF then
      match rest with
      | b1 :: b2 :: _ =>
        if ((if b0 = 0xE0 then 0xA0 else 0x80) ≤ b1 ∧ b1 ≤ (if b0 = 0xED then 0x9F else 0xBF))
            ∧ (0x80 ≤ b2 ∧ b2 ≤ 0xBF) then 3
        else 0
      | _ => 0
    else if 0xF0 ≤ b0 ∧ b0 ≤ 0xF4 then
      match rest with
      | b1 :: b2 :: b3 :: _ =>
        if ((if b0 = 0xF0 then 0x90 else 0x80) ≤ b1 ∧ b1 ≤ (if b0 = 0xF4 then 0x8F else 0xBF))
            ∧ (0x80 ≤ b2 ∧ b2 ≤ 0xBF) ∧ (0x80 ≤ b3 ∧ b3 ≤ 0xBF) then 4
        else 0
      | _ => 0
    else 0

/-- Well-formedness of the first `fuel` sequences of `s`, one sequence per
unit of fuel. -/
def validLoop : Nat → GoString → Bool
  | _, [] => true
  | 0, _ :: _ => false
  | fuel + 1, b :: rest =>
    decide (seqWidth (b :: rest) ≠ 0) && validLoop fuel ((b :: rest).drop (seqWidth (b :: rest)))

/-- Well-formed UTF-8: the string is a concatenation of well-formed byte
sequences.  Each sequence has at least one byte, so one unit of fuel per byte
is enough. -/
def validUTF8 (s : GoString) : Bool := validLoop s.length s

/-! ## JSON encoding (Go package `encoding/json`, `json.Marshal`) -/

/-- Go's `encoding/json` table `htmlSafeSet`: the ASCII bytes that are written
unescaped when HTML escaping is on (the default of `json.Marshal`): every
byte from space to DEL except the double quote, ampersand, angle brackets and
backslash. -/
def htmlSafeSet (b : Nat) : Bool :=
  decide (0x20 ≤ b ∧ b < 0x80 ∧ b ≠ 0x22 ∧ b ≠ 0x26 ∧ b ≠ 0x3C ∧ b ≠ 0x3E ∧ b ≠ 0x5C)

/-- Go's `encoding/json` constant `hex`, indexed. -/
def hex (i : Nat) : Nat := (lit "0123456789abcdef").getD i 0

/-- The escape written by `appendString` for an ASCII byte that is not in
`htmlSafeSet` (the `switch b` of the source, as of Go 1.22; earlier releases
write backspace and form feed as `\u0008` and `\u000c`, which decode to the
same bytes). -/
def escapeByte (b : Nat) : GoString :=
  if b = 0x5C ∨ b = 0x22 then [0x5C, b]
  else if b = 0x08 then lit "\\b"
  else if b = 0x0C then lit "\\f"
  else if b = 0x0A then lit "\\n"
  else if b = 0x0D then lit "\\r"
  else if b = 0x09 then lit "\\t"
  else lit "\\u00" ++ [hex (b >>> 4), hex (b &&& 0xF)]

/-- The loop of Go's `encoding/json.appendString` with `escapeHTML = true`,
on the bytes not yet consumed; the copying of unescaped spans (`start`, `i`)
is written as emitting each byte.  One unit of fuel is one iteration. -/
def appendStringLoop : Nat → GoString → GoString
  | 0, _ => []
  | _ + 1, [] => []
  | fuel + 1, b :: rest =>
    if b < RuneSelf then
      if htmlSafeSet b then b :: appendStringLoop fuel rest
      else escapeByte b ++ appendStringLoop fuel rest
    else
      let src := b :: rest
      let n := min src.length 4   -- utf8.UTFMax
      let cs := DecodeRune (src.take n)
      if cs.1 = RuneError ∧ cs.2 = 1 then
        lit "\\ufffd" ++ appendStringLoop fuel rest
      else if cs.1 = 0x2028 ∨ cs.1 = 0x2029 then
        lit "\\u202" ++ [hex (cs.1 &&& 0xF)] ++ appendStringLoop fuel (src.drop cs.2)
      else
        src.take cs.2 ++ appendStringLoop fuel (src.drop cs.2)

/-- Go's `encoding/json.appendString(nil, src, true)`: the JSON string
literal for `src`.  Every iteration consumes at least one byte, so
`src.length` iterations are enough. -/
def appendString (src : GoString) : GoString :=
  [0x22] ++ appendStringLoop src.length src ++ [0x22]

/-! ## The data model of `main.go` -/

/-- The model identifier, `model`. -/
def model : GoString := lit "gpt-4o-mini"

/-- The endpoint, `openAIEndpoint`. -/
def openAIEndpoint : GoString := lit "https://api.openai.com/v1/chat/completions"

/-- The struct `Message`. -/
structure Message where
  Role : GoString
  Content : GoString
  deriving DecidableEq, Repr

/-- The struct `ChatCompletionRequest`. -/
structure ChatCompletionRequest where
  Model : GoString
  Messages : List Message
  deriving DecidableEq, Repr

/-- The element type of `ChatCompletionResponse.Choices`. -/
structure Choice where
  Message : Message
  deriving DecidableEq, Repr

/-- The struct `ChatCompletionResponse`. -/
structure ChatCompletionResponse where
  Choices : List Choice
  deriving DecidableEq, Repr

/-- The JSON object `json.Marshal` writes for a `Message`: the fields in
declaration order under their `json` tags. -/
def encodeMessage (m : Message) : GoString :=
  lit "\x7b\"role\":" ++ appendString m.Role ++ lit ",\"content\":" ++ appendString m.Content
    ++ lit "\x7d"

/-- The JSON array `json.Marshal` writes for a non-nil `[]Message`. -/
def encodeMessages (ms : List Message) : GoString :=
  lit "[" ++ stringsJoin (ms.map encodeMessage) (lit ",") ++ lit "]"

/-- Go's `json.Marshal` on a `ChatCompletionRequest` whose `Messages` is not
nil.  Strings and slices of structs of strings always encode, so the error
result is never produced. -/
def jsonMarshal (r : ChatCompletionRequest) : Except GoString GoString :=
  .ok (lit "\x7b\"model\":" ++ appendString r.Model ++ lit ",\"messages\":"
    ++ encodeMessages r.Messages ++ lit "\x7d")


/-! ## The process and its surroundings -/

/-- A request header list; `Header.Set` replaces the values of a key. -/
abbrev Header := List (GoString × GoString)

/-- Go's `http.Header.Set` on a key already in canonical form. -/
def headerSet (h : Header) (key value : GoString) : Header :=
  h.filter (fun kv => kv.1 ≠ key) ++ [(key, value)]

/-- The part of `http.Request` that `main` fills in. -/
structure HttpRequest where
  Method : GoString
  URL : GoString
  Header : Header
  Body : GoString
  deriving DecidableEq, Repr

/-- The `http.Client` of `main`: only `Timeout` is set (in nanoseconds, as
`time.Duration`). -/
structure Client where
  Timeout : Nat
  deriving DecidableEq, Repr

/-- Go's `time.Second` in nanoseconds. -/
def timeSecond : Nat := 1000000000

/-- A response body stream: the bytes it delivers, and the error that ends
the stream if it does not end with `io.EOF`. -/
structure BodyStream where
  data : GoString
  err : Option GoString
  deriving DecidableEq, Repr

/-- The part of `http.Response` that `main` reads. -/
structure HttpResponse where
  Status : GoString
  StatusCode : Int
  Body : BodyStream
  deriving DecidableEq, Repr

/-- Go's `http.StatusOK`. -/
def StatusOK : Int := 200

/-- Go's `io.ReadAll`: the bytes read until end of stream or error, and the
error if any. -/
def ioReadAll (b : BodyStream) : GoString × Option GoString := (b.data, b.err)

/-- Go's `http.NewRequest(method, url, body)`.  It fails only for an invalid
method or a URL that does not parse; `main` passes the constants `"POST"` and
`openAIEndpoint`, for which it returns a request with an empty header. -/
def httpNewRequest (method url body : GoString) : Except GoString HttpRequest :=
  .ok { Method := method, URL := url, Header := [], Body := body }

/-- Everything outside the program that one run depends on. -/
structure World where
  /-- The argument vector `os.Args`, program name first. -/
  Args : List GoString
  /-- The error returned by `godotenv.Load()`, if any. -/
  dotenvErr : Option GoString
  /-- The process environment as `os.LookupEnv` sees it after
  `godotenv.Load()` has run. -/
  lookupEnv : GoString → Option GoString
  /-- The header (date and time) that the standard logger puts before a
  message. -/
  logHeader : GoString
  /-- The transport: `client.Do(req)`. -/
  clientDo : Client → HttpRequest → Except GoString HttpResponse
  /-- The `encoding/json` decoder on a response stream:
  `json.NewDecoder(body).Decode(&res)`. -/
  jsonDecode : BodyStream → Except GoString ChatCompletionResponse

/-- Go's `os.Getenv`: the value of the variable, empty if it is unset. -/
def osGetenv (w : World) (key : GoString) : GoString := (w.lookupEnv key).getD []

/-- Go's `log.Println` with the standard logger: header, message, newline,
written to standard error. -/
def logPrintln (w : World) (msg : GoString) : GoString := w.logHeader ++ msg ++ lit "\n"

/-- The place where a run of `main` ends. -/
inductive ExitSite where
  /-- `OPENAI_API_KEY is not set`, `os.Exit(1)`. -/
  | keyNotSet
  /-- `usage: chatgpt-cli <prompt>`, `os.Exit(1)`. -/
  | usage
  /-- `failed to encode request:`, `os.Exit(1)`. -/
  | encodeFailed
  /-- `failed to create request:`, `os.Exit(1)`. -/
  | createFailed
  /-- `request failed:`, `os.Exit(1)`. -/
  | requestFailed
  /-- `API error:`, `os.Exit(1)`. -/
  | apiError
  /-- `failed to decode response:`, `os.Exit(1)`. -/
  | decodeFailed
  /-- `no response from model`, `os.Exit(1)`. -/
  | noResponse
  /-- The end of `main`: exit status 0. -/
  | returned
  /-- A run-time panic (slice or index out of range): exit status 2. -/
  | panicked
  deriving DecidableEq, Repr

/-- What a run has done so far. -/
structure Proc where
  /-- Bytes written to `os.Stdout`. -/
  stdout : GoString := []
  /-- Bytes written to `os.Stderr`. -/
  stderr : GoString := []
  /-- The requests handed to `client.Do`, in order. -/
  sent : List HttpRequest := []
  /-- The streams handed to the JSON decoder, in order. -/
  decoded : List BodyStream := []
  deriving DecidableEq, Repr

/-- A finished run. -/
structure Outcome extends Proc where
  exitCode : Nat
  site : ExitSite
  deriving DecidableEq, Repr

/-- Write to standard output. -/
def Proc.out (p : Proc) (b : GoString) : Proc := { p with stdout := p.stdout ++ b }

/-- Write to standard error. -/
def Proc.err (p : Proc) (b : GoString) : Proc := { p with stderr := p.stderr ++ b }

/-- Go's `os.Exit(code)`. -/
def Proc.exit (p : Proc) (site : ExitSite) (code : Nat) : Outcome :=
  { p with exitCode := code, site := site }

/-- A Go run-time panic: the message goes to standard error and the process
ends with status 2 (the goroutine trace that follows the first line is left
out). -/
def Proc.panic (p : Proc) (msg : GoString) : Outcome :=
  (p.err (lit "panic: runtime error: " ++ msg ++ lit "\n")).exit .panicked 2

/-- The Go slice expression `s[low:]`, which panics unless `low ≤ len(s)`. -/
def sliceFrom {α : Type} (s : List α) (low : Nat) : Option (List α) :=
  if low ≤ s.length then some (s.drop low) else none

/-- The Go index expression `s[i]`, which panics unless `i < len(s)`. -/
def index {α : Type} (s : List α) (i : Nat) : Option α := s.get? i

/-- The function `main` of `main.go`, statement by statement.  The deferred
`resp.Body.Close()` has no effect on the streams or the exit code and is left
out; the 60 second timeout is part of the client value handed to the
transport. -/
def main (w : World) : Outcome :=
  let p : Proc := {}
  -- err := godotenv.Load(); if err != nil { log.Println(...) }
  let p := match w.dotenvErr with
    | some _ => p.err (logPrintln w (lit "No .env file found, using system environment"))
    | none => p
  let apiKey := osGetenv w (lit "OPENAI_API_KEY")
  if apiKey = [] then
    (p.err (fmtSprintln [lit "OPENAI_API_KEY is not set"])).exit .keyNotSet 1
  else if w.Args.length < 2 then
    (p.err (fmtSprintln [lit "usage: chatgpt-cli <prompt>"])).exit .usage 1
  else
    match sliceFrom w.Args 1 with
    | none => p.panic (lit "slice bounds out of range")
    | some promptArgs =>
      let prompt := stringsJoin promptArgs (lit " ")
      let reqBody : ChatCompletionRequest :=
        { Model := model, Messages := [{ Role := lit "user", Content := prompt }] }
      match jsonMarshal reqBody with
      | .error err =>
        (p.err (fmtSprintln [lit "failed to encode request:", err])).exit .encodeFailed 1
      | .ok bodyBytes =>
        match httpNewRequest (lit "POST") openAIEndpoint bodyBytes with
        | .error err =>
          (p.err (fmtSprintln [lit "failed to create request:", err])).exit .createFailed 1
        | .ok req =>
          let req := { req with
            Header := headerSet req.Header (lit "Authorization") (lit "Bearer " ++ apiKey) }
          let req := { req with
            Header := headerSet req.Header (lit "Content-Type") (lit "application/json") }
          let client : Client := { Timeout := 60 * timeSecond }
          let p := { p with sent := p.sent ++ [req] }
          match w.clientDo client req with
          | .error err =>
            (p.err (fmtSprintln [lit "request failed:", err])).exit .requestFailed 1
          | .ok resp =>
            if resp.StatusCode ≠ StatusOK then
              let body := (ioReadAll resp.Body).1
              (p.err (lit "API error: " ++ resp.Status ++ lit "\n" ++ body ++ lit "\n")).exit
                .apiError 1
            else
              let p := { p with decoded := p.decoded ++ [resp.Body] }
              match w.jsonDecode resp.Body with
              | .error err =>
                (p.err (fmtSprintln [lit "failed to decode response:", err])).exit
                  .decodeFailed 1
              | .ok res =>
                if res.Choices.length = 0 then
                  (p.err (fmtSprintln [lit "no response from model"])).exit .noResponse 1
                else
                  match index res.Choices 0 with
                  | none => p.panic (lit "index out of range [0] with length 0")
                  | some choice =>
                    (p.out (fmtSprintln [choice.Message.Content])).exit .returned 0


/-! ## Auxiliary definitions for the statements -/

/-- The name of the environment variable `main` reads. -/
def apiKeyVar : GoString := lit "OPENAI_API_KEY"

/-- What the run has written to standard error before it looks at the API
key: the logger's line when `godotenv.Load()` failed, nothing otherwise. -/
def dotenvNotice (w : World) : GoString :=
  match w.dotenvErr with
  | some _ => logPrintln w (lit "No .env file found, using system environment")
  | none => []

/-- The request value `reqBody` for a prompt. -/
def requestFor (prompt : GoString) : ChatCompletionRequest :=
  { Model := model, Messages := [{ Role := lit "user", Content := prompt }] }

/-- The client `main` uses. -/
def theClient : Client := { Timeout := 60 * timeSecond }


/-- The request `main` hands to the transport, written out. -/
def builtRequest (w : World) : HttpRequest :=
  { Method := lit "POST", URL := openAIEndpoint,
    Header := [(lit "Authorization", lit "Bearer " ++ osGetenv w apiKeyVar),
      (lit "Content-Type", lit "application/json")],
    Body := lit "\x7b\"model\":" ++ appendString model ++ lit ",\"messages\":"
      ++ encodeMessages [{ Role := lit "user", Content := stringsJoin (w.Args.drop 1) (lit " ") }]
      ++ lit "\x7d" }

/-! ## Test worlds (the mocked endpoints of the specification) -/

/-- A world without a `.env` file, whose environment holds at most the API
key, whose transport gives the same reply to every request and whose decoder
gives the same result for every stream. -/
def mockWorld (args : List GoString) (key : Option GoString)
    (reply : Except GoString HttpResponse)
    (decode : Except GoString ChatCompletionResponse) : World where
  Args := args
  dotenvErr := some (lit "open .env: no such file or directory")
  lookupEnv := fun k => if k = apiKeyVar then key else none
  logHeader := lit "2024/01/01 00:00:00 "
  clientDo := fun _ _ => reply
  jsonDecode := fun _ => decode

/-- The decoded form of the reply `Hello`. -/
def helloResponse : ChatCompletionResponse :=
  { Choices := [{ Message := { Role := lit "assistant", Content := lit "Hello" } }] }

/-- A response with the given status and body, fully delivered. -/
def mockResponse (code : Int) (status body : GoString) : HttpResponse :=
  { Status := status, StatusCode := code, Body := { data := body, err := none } }

/-- The endpoint answers 200 with one choice, `Hello`. -/
def helloWorld : World :=
  mockWorld [lit "chatgpt-cli", lit "Say", lit "hello"] (some (lit "sk-test"))
    (.ok (mockResponse 200 (lit "200 OK") (lit
      "\x7b\"choices\":[\x7b\"message\":\x7b\"role\":\"assistant\",\"content\":\"Hello\"\x7d\x7d]\x7d")))
    (.ok helloResponse)

/-- The endpoint answers 401 with a body that is a valid choices document. -/
def unauthorizedWorld : World :=
  mockWorld [lit "chatgpt-cli", lit "hi"] (some (lit "sk-test"))
    (.ok (mockResponse 401 (lit "401 Unauthorized") (lit
      "\x7b\"choices\":[\x7b\"message\":\x7b\"role\":\"assistant\",\"content\":\"Hello\"\x7d\x7d]\x7d")))
    (.ok helloResponse)

/-- The endpoint answers 200 with an empty choices list. -/
def emptyChoicesWorld : World :=
  mockWorld [lit "chatgpt-cli", lit "hi"] (some (lit "sk-test"))
    (.ok (mockResponse 200 (lit "200 OK") (lit "\x7b\"choices\":[]\x7d")))
    (.ok { Choices := [] })

/-- The endpoint answers 200 with a body that is not JSON. -/
def notJsonWorld : World :=
  mockWorld [lit "chatgpt-cli", lit "hi"] (some (lit "sk-test"))
    (.ok (mockResponse 200 (lit "200 OK") (lit "oops")))
    (.error (lit "invalid character \x27o\x27 looking for beginning of value"))

/-- The API key is set but empty. -/
def emptyKeyWorld : World :=
  mockWorld [lit "chatgpt-cli", lit "hi"] (some [])
    (.ok (mockResponse 200 (lit "200 OK") [])) (.ok helloResponse)

/-- No prompt argument is given. -/
def noArgsWorld : World :=
  mockWorld [lit "chatgpt-cli"] (some (lit "sk-test"))
    (.ok (mockResponse 200 (lit "200 OK") [])) (.ok helloResponse)

/-- The only prompt argument is the empty string (`chatgpt-cli ""`). -/
def emptyArgWorld : World :=
  mockWorld [lit "chatgpt-cli", []] (some (lit "sk-test"))
    (.ok (mockResponse 200 (lit "200 OK") [])) (.ok helloResponse)

/-! ## JSON decoding of a request body (Go `json.Unmarshal`)

The decoder below follows `encoding/json` on the inputs it accepts: the
scanner's grammar for objects, arrays, strings and white space, and
`unquote` for string literals.  Its result `none` stands for a decoding error
and also for the inputs this model leaves out: a value that is not a string
where a string field is decoded or not an array of objects for `messages`,
a key that is not exactly one of the field names, a `messages` key that
occurs twice, and `null`. -/

/-- The scanner's `isSpace`. -/
def isSpace (c : Nat) : Bool := decide (c = 0x20 ∨ c = 0x09 ∨ c = 0x0D ∨ c = 0x0A)

/-- Skip JSON white space. -/
def skipSpace : GoString → GoString
  | [] => []
  | c :: rest => if isSpace c then skipSpace rest else c :: rest

/-- The value of a hexadecimal digit (the `switch` in `getu4`). -/
def hexDigit (c : Nat) : Option Nat :=
  if 0x30 ≤ c ∧ c ≤ 0x39 then some (c - 0x30)
  else if 0x61 ≤ c ∧ c ≤ 0x66 then some (c - 0x61 + 10)
  else if 0x41 ≤ c ∧ c ≤ 0x46 then some (c - 0x41 + 10)
  else none

/-- Go's `encoding/json.getu4`: the value of a leading `\uXXXX`, `none` where
the source returns -1. -/
def getu4 : GoString → Option Nat
  | b0 :: b1 :: c0 :: c1 :: c2 :: c3 :: _ =>
    if b0 ≠ 0x5C ∨ b1 ≠ 0x75 then none
    else
      match hexDigit c0, hexDigit c1, hexDigit c2, hexDigit c3 with
      | some d0, some d1, some d2, some d3 => some ((((0 * 16 + d0) * 16 + d1) * 16 + d2) * 16 + d3)
      | _, _, _, _ => none
  | _ => none

/-- Go's `utf16.IsSurrogate`. -/
def utf16IsSurrogate (r : Nat) : Bool := decide (0xD800 ≤ r ∧ r < 0xE000)

/-- Go's `utf16.DecodeRune`, with `none` for a second argument of -1: the
code point of a surrogate pair, U+FFFD if the pair is not valid. -/
def utf16DecodeRune (r1 : Nat) (r2 : Option Nat) : Nat :=
  match r2 with
  | some r2 =>
    if 0xD800 ≤ r1 ∧ r1 < 0xDC00 ∧ 0xDC00 ≤ r2 ∧ r2 < 0xE000 then
      (((r1 - 0xD800) <<< 10) ||| (r2 - 0xDC00)) + 0x10000
    else 0xFFFD
  | none => 0xFFFD

/-- Put decoded bytes in front of the result of decoding the rest. -/
def emit (p : GoString) (r : Option (GoString × GoString)) : Option (GoString × GoString) :=
  r.map (fun x => (p ++ x.1, x.2))

/-- A JSON string literal after its opening quote: the scanner's search for
the closing quote together with `unquote`.  The result is the decoded string
and the input after the closing quote.  One unit of fuel is one iteration. -/
def unquoteLoop : Nat → GoString → Option (GoString × GoString)
  | 0, _ => none
  | _ + 1, [] => none
  | fuel + 1, c :: rest =>
    if c = 0x22 then some ([], rest)
    else if c = 0x5C then
      match rest with
      | [] => none
      | e :: rest1 =>
        if e = 0x22 ∨ e = 0x5C ∨ e = 0x2F then emit [e] (unquoteLoop fuel rest1)
        else if e = 0x62 then emit [0x08] (unquoteLoop fuel rest1)
        else if e = 0x66 then emit [0x0C] (unquoteLoop fuel rest1)
        else if e = 0x6E then emit [0x0A] (unquoteLoop fuel rest1)
        else if e = 0x72 then emit [0x0D] (unquoteLoop fuel rest1)
        else if e = 0x74 then emit [0x09] (unquoteLoop fuel rest1)
        else if e = 0x75 then
          match getu4 (c :: rest) with
          | none => none
          | some rr =>
            let after := (c :: rest).drop 6
            if utf16IsSurrogate rr then
              let dec := utf16DecodeRune rr (getu4 after)
              if dec ≠ 0xFFFD then emit (EncodeRune dec) (unquoteLoop fuel (after.drop 6))
              else emit (EncodeRune 0xFFFD) (unquoteLoop fuel after)
            else emit (EncodeRune rr) (unquoteLoop fuel after)
        else none
    else if c < 0x20 then none
    else if c < RuneSelf then emit [c] (unquoteLoop fuel rest)
    else
      let rs := DecodeRune (c :: rest)
      emit (EncodeRune rs.1) (unquoteLoop fuel ((c :: rest).drop rs.2))

/-- A JSON string value at the head of the input: the decoded string and the
input after it. -/
def decodeString (s : GoString) : Option (GoString × GoString) :=
  match s with
  | c :: t => if c = 0x22 then unquoteLoop t.length t else none
  | [] => none

/-- The members of a JSON object decoded into a `Message`, from the start of
a member to the closing brace.  A later value of a field replaces an earlier
one. -/
def decodeMessageFields : Nat → GoString → Message → Option (Message × GoString)
  | 0, _, _ => none
  | fuel + 1, s, m =>
    match decodeString (skipSpace s) with
    | none => none
    | some (key, s1) =>
      match skipSpace s1 with
      | [] => none
      | c :: s2 =>
        if c ≠ 0x3A then none
        else
          match decodeString (skipSpace s2) with
          | none => none
          | some (v, s3) =>
            let set : Option Message :=
              if key = lit "role" then some { m with Role := v }
              else if key = lit "content" then some { m with Content := v }
              else none
            match set, skipSpace s3 with
            | some m1, d :: s4 =>
              if d = 0x2C then decodeMessageFields fuel s4 m1
              else if d = 0x7D then some (m1, s4)
              else none
            | _, _ => none

/-- A JSON object decoded into a fresh `Message`. -/
def decodeMessage (s : GoString) : Option (Message × GoString) :=
  match skipSpace s with
  | [] => none
  | c :: s1 =>
    if c ≠ 0x7B then none
    else
      match skipSpace s1 with
      | [] => none
      | d :: s2 =>
        if d = 0x7D then some ({ Role := [], Content := [] }, s2)
        else decodeMessageFields s1.length s1 { Role := [], Content := [] }

/-- The elements of a JSON array decoded into a `[]Message`, from the start
of an element to the closing bracket. -/
def decodeMessageElems : Nat → GoString → Option (List Message × GoString)
  | 0, _ => none
  | fuel + 1, s =>
    match decodeMessage s with
    | none => none
    | some (m, s1) =>
      match skipSpace s1 with
      | [] => none
      | d :: s2 =>
        if d = 0x2C then (decodeMessageElems fuel s2).map (fun x => (m :: x.1, x.2))
        else if d = 0x5D then some ([m], s2)
        else none

/-- A JSON array decoded into a `[]Message`. -/
def decodeMessages (s : GoString) : Option (List Message × GoString) :=
  match skipSpace s with
  | [] => none
  | c :: s1 =>
    if c ≠ 0x5B then none
    else
      match skipSpace s1 with
      | [] => none
      | d :: s2 =>
        if d = 0x5D then some ([], s2)
        else decodeMessageElems s1.length s1

/-- The members of a JSON object decoded into a `ChatCompletionRequest`; the
flag tells whether `messages` has been decoded already. -/
def decodeRequestFields :
    Nat → GoString → ChatCompletionRequest → Bool → Option (ChatCompletionRequest × GoString)
  | 0, _, _, _ => none
  | fuel + 1, s, r, seen =>
    match decodeString (skipSpace s) with
    | none => none
    | some (key, s1) =>
      match skipSpace s1 with
      | [] => none
      | c :: s2 =>
        if c ≠ 0x3A then none
        else
          let field : Option ((ChatCompletionRequest × GoString) × Bool) :=
            if key = lit "model" then
              (decodeString (skipSpace s2)).map (fun x => (({ r with Model := x.1 }, x.2), seen))
            else if key = lit "messages" ∧ seen = false then
              (decodeMessages s2).map (fun x => (({ r with Messages := x.1 }, x.2), true))
            else none
          match field with
          | none => none
          | some ((r1, s3), seen1) =>
            match skipSpace s3 with
            | [] => none
            | d :: s4 =>
              if d = 0x2C then decodeRequestFields fuel s4 r1 seen1
              else if d = 0x7D then some (r1, s4)
              else none

/-- Go's `json.Unmarshal(data, &req)` for a zero `ChatCompletionRequest`: the
whole input is one JSON object, white space aside. -/
def jsonUnmarshal (data : GoString) : Option ChatCompletionRequest :=
  match skipSpace data with
  | [] => none
  | c :: s1 =>
    if c ≠ 0x7B then none
    else
      let zero : ChatCompletionRequest := { Model := [], Messages := [] }
      let body : Option (ChatCompletionRequest × GoString) :=
        match skipSpace s1 with
        | [] => none
        | d :: s2 =>
          if d = 0x7D then some (zero, s2)
          else decodeRequestFields s1.length s1 zero false
      match body with
      | none => none
      | some (r, rest) => if skipSpace rest = [] then some r else none

/-- The request body `main` would send for a prompt, decoded again. -/
def roundTrip (prompt : GoString) : Option ChatCompletionRequest :=
  match jsonMarshal (requestFor prompt) with
  | .ok body => jsonUnmarshal body
  | .error _ => none

/-! ## Lemmas about UTF-8 and the JSON string encoding -/

theorem shl_or_eq_add (a b i : Nat) (h : b < 2 ^ i) : (a <<< i) ||| b = a * 2 ^ i + b := by
  rw [Nat.shiftLeft_eq, Nat.mul_comm, ← Nat.mul_add_lt_is_or h]

theorem const_or_eq_add (a i k b : Nat) (hk : k = a * 2 ^ i) (h : b < 2 ^ i) :
    k ||| b = k + b := by
  subst hk
  rw [Nat.mul_comm, ← Nat.mul_add_lt_is_or h]

theorem and_mask (n m x : Nat) (hm : m = 2 ^ n - 1) : x &&& m = x % 2 ^ n := by
  subst hm; exact Nat.and_pow_two_sub_one_eq_mod x n

theorem first_two (b0 : Nat) (h0 : 0xC2 ≤ b0 ∧ b0 ≤ 0xDF) : first b0 = 0x02 := by
  unfold first
  rw [if_neg (by omega), if_neg (by omega), if_pos (by omega)]

theorem DecodeRune_two (b0 b1 : Nat) (t : GoString) (h0 : 0xC2 ≤ b0 ∧ b0 ≤ 0xDF)
    (h1 : 0x80 ≤ b1 ∧ b1 ≤ 0xBF) :
    DecodeRune (b0 :: b1 :: t) = ((b0 % 32) * 64 + b1 % 64, 2) := by
  have e1 : (b0 &&& 0x1F) = b0 % 32 := and_mask 5 31 b0 rfl
  have e2 : (b1 &&& 0x3F) = b1 % 64 := and_mask 6 63 b1 rfl
  have e3 : ((b0 % 32) <<< 6) ||| (b1 % 64) = (b0 % 32) * 64 + b1 % 64 :=
    shl_or_eq_add _ _ 6 (by omega)
  have c1 : ¬ (b1 < 0x80 ∨ 0xBF < b1) := by omega
  have k1 : (2 : Nat) &&& 7 = 2 := by decide
  have k2 : (2 : Nat) >>> 4 = 0 := by decide
  simp only [DecodeRune, first_two b0 h0, acceptRanges, e1, e2, e3, k1, k2]
  simp [c1]

theorem EncodeRune_two (b0 b1 : Nat) (h0 : 0xC2 ≤ b0 ∧ b0 ≤ 0xDF)
    (h1 : 0x80 ≤ b1 ∧ b1 ≤ 0xBF) :
    EncodeRune ((b0 % 32) * 64 + b1 % 64) = [b0, b1] := by
  have e1 : ((b0 % 32 * 64 + b1 % 64) >>> 6) % 256 = b0 % 32 := by
    rw [Nat.shiftRight_eq_div_pow]; omega
  have e2 : ((b0 % 32 * 64 + b1 % 64) % 256) &&& 0x3F = b1 % 64 := by
    rw [and_mask 6 63 _ rfl]; omega
  have e3 : 0xC0 ||| (b0 % 32) = b0 := by
    rw [const_or_eq_add 6 5 0xC0 _ rfl (by omega)]; omega
  have e4 : 0x80 ||| (b1 % 64) = b1 := by
    rw [const_or_eq_add 2 6 0x80 _ rfl (by omega)]; omega
  unfold EncodeRune
  rw [if_neg (by omega), if_pos (by omega), e1, e2, e3, e4]
theorem or_three (a b c : Nat) (hb : b < 64) (hc : c < 64) :
    (a <<< 12) ||| (b <<< 6) ||| c = a * 4096 + b * 64 + c := by
  have h1 : b <<< 6 = b * 64 := by rw [Nat.shiftLeft_eq]
  have h2 : (a <<< 12) ||| (b * 64) = a * 4096 + b * 64 := by
    rw [shl_or_eq_add _ _ 12 (by omega)]; norm_num
  have h3 : (a * 4096 + b * 64) ||| c = a * 4096 + b * 64 + c := by
    have h := Nat.mul_add_lt_is_or (i := 6) (b := c) (by omega) (a * 64 + b)
    have e : 2 ^ 6 * (a * 64 + b) = a * 4096 + b * 64 := by omega
    rw [e] at h
    exact h.symm
  rw [h1, h2, h3]

theorem or_four (a b c d : Nat) (hb : b < 64) (hc : c < 64) (hd : d < 64) :
    (a <<< 18) ||| (b <<< 12) ||| (c <<< 6) ||| d
      = a * 262144 + b * 4096 + c * 64 + d := by
  have h1 : b <<< 12 = b * 4096 := by rw [Nat.shiftLeft_eq]
  have h2 : (a <<< 18) ||| (b * 4096) = a * 262144 + b * 4096 := by
    rw [shl_or_eq_add _ _ 18 (by omega)]; norm_num
  have h3 : c <<< 6 = c * 64 := by rw [Nat.shiftLeft_eq]
  have h4 : (a * 262144 + b * 4096) ||| (c * 64) = a * 262144 + b * 4096 + c * 64 := by
    have h := Nat.mul_add_lt_is_or (i := 12) (b := c * 64) (by omega) (a * 64 + b)
    have e : 2 ^ 12 * (a * 64 + b) = a * 262144 + b * 4096 := by omega
    rw [e] at h
    exact h.symm
  have h5 : (a * 262144 + b * 4096 + c * 64) ||| d = a * 262144 + b * 4096 + c * 64 + d := by
    have h := Nat.mul_add_lt_is_or (i := 6) (b := d) (by omega) (a * 4096 + b * 64 + c)
    have e : 2 ^ 6 * (a * 4096 + b * 64 + c) = a * 262144 + b * 4096 + c * 64 := by omega
    rw [e] at h
    exact h.symm
  rw [h1, h2, h3, h4, h5]

theorem first_three (b0 : Nat) (h0 : 0xE0 ≤ b0 ∧ b0 ≤ 0xEF) :
    first b0 = (if b0 = 0xE0 then 0x13 else if b0 = 0xED then 0x23 else 0x03) := by
  unfold first
  rw [if_neg (by omega), if_neg (by omega), if_neg (by omega)]
  by_cases ha : b0 = 0xE0
  · rw [if_pos ha, if_pos ha]
  · rw [if_neg ha, if_neg ha]
    by_cases hb : b0 = 0xED
    · rw [if_pos hb, if_neg (by omega), if_pos hb]
    · rw [if_neg hb, if_neg hb]
      by_cases hc : b0 < 0xED
      · rw [if_pos hc]
      · rw [if_neg hc, if_pos (by omega)]

theorem first_four (b0 : Nat) (h0 : 0xF0 ≤ b0 ∧ b0 ≤ 0xF4) :
    first b0 = (if b0 = 0xF0 then 0x34 else if b0 = 0xF4 then 0x44 else 0x04) := by
  unfold first
  rw [if_neg (by omega), if_neg (by omega), if_neg (by omega), if_neg (by omega),
    if_neg (by omega), if_neg (by omega), if_neg (by omega)]
  by_cases ha : b0 = 0xF0
  · rw [if_pos ha, if_pos ha]
  · rw [if_neg ha, if_neg ha]
    by_cases hb : b0 = 0xF4
    · rw [if_neg (by omega), if_pos hb, if_pos hb]
    · rw [if_pos (by omega), if_neg hb]

theorem DecodeRune_three (b0 b1 b2 : Nat) (t : GoString) (h0 : 0xE0 ≤ b0 ∧ b0 ≤ 0xEF)
    (h1 : (if b0 = 0xE0 then 0xA0 else 0x80) ≤ b1 ∧ b1 ≤ (if b0 = 0xED then 0x9F else 0xBF))
    (h2 : 0x80 ≤ b2 ∧ b2 ≤ 0xBF) :
    DecodeRune (b0 :: b1 :: b2 :: t) = ((b0 % 16) * 4096 + (b1 % 64) * 64 + b2 % 64, 3) := by
  have e0 : (b0 &&& 0x0F) = b0 % 16 := and_mask 4 15 b0 rfl
  have e1 : (b1 &&& 0x3F) = b1 % 64 := and_mask 6 63 b1 rfl
  have e2 : (b2 &&& 0x3F) = b2 % 64 := and_mask 6 63 b2 rfl
  have e3 := or_three (b0 % 16) (b1 % 64) (b2 % 64) (by omega) (by omega)
  have c2 : ¬ (b2 < 0x80 ∨ 0xBF < b2) := by omega
  have ka : (0x13 : Nat) &&& 7 = 3 ∧ (0x13 : Nat) >>> 4 = 1 := by decide
  have kb : (0x23 : Nat) &&& 7 = 3 ∧ (0x23 : Nat) >>> 4 = 2 := by decide
  have kc : (0x03 : Nat) &&& 7 = 3 ∧ (0x03 : Nat) >>> 4 = 0 := by decide
  simp only [DecodeRune, first_three b0 h0, e0, e1, e2, e3]
  by_cases ha : b0 = 0xE0
  · have c1 : ¬ (b1 < 0xA0 ∨ 0xBF < b1) := by
      rw [if_pos ha, if_neg (by omega)] at h1; omega
    simp [ha, ka, acceptRanges, c1, c2]
  · by_cases hb : b0 = 0xED
    · have c1 : ¬ (b1 < 0x80 ∨ 0x9F < b1) := by
        rw [if_neg ha, if_pos hb] at h1; omega
      simp [hb, kb, acceptRanges, c1, c2]
    · have c1 : ¬ (b1 < 0x80 ∨ 0xBF < b1) := by
        rw [if_neg ha, if_neg hb] at h1; omega
      simp [ha, hb, kc, acceptRanges, c1, c2]

theorem DecodeRune_four (b0 b1 b2 b3 : Nat) (t : GoString) (h0 : 0xF0 ≤ b0 ∧ b0 ≤ 0xF4)
    (h1 : (if b0 = 0xF0 then 0x90 else 0x80) ≤ b1 ∧ b1 ≤ (if b0 = 0xF4 then 0x8F else 0xBF))
    (h2 : 0x80 ≤ b2 ∧ b2 ≤ 0xBF) (h3 : 0x80 ≤ b3 ∧ b3 ≤ 0xBF) :
    DecodeRune (b0 :: b1 :: b2 :: b3 :: t)
      = ((b0 % 8) * 262144 + (b1 % 64) * 4096 + (b2 % 64) * 64 + b3 % 64, 4) := by
  have e0 : (b0 &&& 0x07) = b0 % 8 := and_mask 3 7 b0 rfl
  have e1 : (b1 &&& 0x3F) = b1 % 64 := and_mask 6 63 b1 rfl
  have e2 : (b2 &&& 0x3F) = b2 % 64 := and_mask 6 63 b2 rfl
  have e3 : (b3 &&& 0x3F) = b3 % 64 := and_mask 6 63 b3 rfl
  have e4 := or_four (b0 % 8) (b1 % 64) (b2 % 64) (b3 % 64) (by omega) (by omega) (by omega)
  have c2 : ¬ (b2 < 0x80 ∨ 0xBF < b2) := by omega
  have c3 : ¬ (b3 < 0x80 ∨ 0xBF < b3) := by omega
  have ka : (0x34 : Nat) &&& 7 = 4 ∧ (0x34 : Nat) >>> 4 = 3 := by decide
  have kb : (0x44 : Nat) &&& 7 = 4 ∧ (0x44 : Nat) >>> 4 = 4 := by decide
  have kc : (0x04 : Nat) &&& 7 = 4 ∧ (0x04 : Nat) >>> 4 = 0 := by decide
  simp only [DecodeRune, first_four b0 h0, e0, e1, e2, e3, e4]
  by_cases ha : b0 = 0xF0
  · have c1 : ¬ (b1 < 0x90 ∨ 0xBF < b1) := by
      rw [if_pos ha, if_neg (by omega)] at h1; omega
    simp [ha, ka, acceptRanges, c1, c2, c3]
  · by_cases hb : b0 = 0xF4
    · have c1 : ¬ (b1 < 0x80 ∨ 0x8F < b1) := by
        rw [if_neg ha, if_pos hb] at h1; omega
      simp [hb, kb, acceptRanges, c1, c2, c3]
    · have c1 : ¬ (b1 < 0x80 ∨ 0xBF < b1) := by
        rw [if_neg ha, if_neg hb] at h1; omega
      simp [ha, hb, kc, acceptRanges, c1, c2, c3]

theorem EncodeRune_three (b0 b1 b2 : Nat) (h0 : 0xE0 ≤ b0 ∧ b0 ≤ 0xEF)
    (h1 : (if b0 = 0xE0 then 0xA0 else 0x80) ≤ b1 ∧ b1 ≤ (if b0 = 0xED then 0x9F else 0xBF))
    (h2 : 0x80 ≤ b2 ∧ b2 ≤ 0xBF) :
    EncodeRune ((b0 % 16) * 4096 + (b1 % 64) * 64 + b2 % 64) = [b0, b1, b2] := by
  have hb1 : 0x80 ≤ b1 ∧ b1 ≤ 0xBF := by split_ifs at h1 <;> omega
  have hlo : 0x800 ≤ (b0 % 16) * 4096 + (b1 % 64) * 64 + b2 % 64 := by
    split_ifs at h1 <;> omega
  have hsur : ¬ ((b0 % 16) * 4096 + (b1 % 64) * 64 + b2 % 64 > 0x10FFFF
      ∨ (0xD800 ≤ (b0 % 16) * 4096 + (b1 % 64) * 64 + b2 % 64
        ∧ (b0 % 16) * 4096 + (b1 % 64) * 64 + b2 % 64 ≤ 0xDFFF)) := by
    split_ifs at h1 <;> omega
  generalize hr : (b0 % 16) * 4096 + (b1 % 64) * 64 + b2 % 64 = r at *
  have e1 : (r >>> 12) % 256 = b0 % 16 := by
    rw [Nat.shiftRight_eq_div_pow]; omega
  have e2 : ((r >>> 6) % 256) &&& 0x3F = b1 % 64 := by
    rw [and_mask 6 63 _ rfl, Nat.shiftRight_eq_div_pow]; omega
  have e3 : (r % 256) &&& 0x3F = b2 % 64 := by
    rw [and_mask 6 63 _ rfl]; omega
  have e4 : 0xE0 ||| (b0 % 16) = b0 := by
    rw [const_or_eq_add 14 4 0xE0 _ rfl (by omega)]; omega
  have e5 : 0x80 ||| (b1 % 64) = b1 := by
    rw [const_or_eq_add 2 6 0x80 _ rfl (by omega)]; omega
  have e6 : 0x80 ||| (b2 % 64) = b2 := by
    rw [const_or_eq_add 2 6 0x80 _ rfl (by omega)]; omega
  unfold EncodeRune
  rw [if_neg (by omega), if_neg (by omega)]
  simp only [if_neg hsur]
  rw [if_pos (by omega), e1, e2, e3, e4, e5, e6]

theorem EncodeRune_four (b0 b1 b2 b3 : Nat) (h0 : 0xF0 ≤ b0 ∧ b0 ≤ 0xF4)
    (h1 : (if b0 = 0xF0 then 0x90 else 0x80) ≤ b1 ∧ b1 ≤ (if b0 = 0xF4 then 0x8F else 0xBF))
    (h2 : 0x80 ≤ b2 ∧ b2 ≤ 0xBF) (h3 : 0x80 ≤ b3 ∧ b3 ≤ 0xBF) :
    EncodeRune ((b0 % 8) * 262144 + (b1 % 64) * 4096 + (b2 % 64) * 64 + b3 % 64)
      = [b0, b1, b2, b3] := by
  have hb1 : 0x80 ≤ b1 ∧ b1 ≤ 0xBF := by split_ifs at h1 <;> omega
  have hlo : 0x10000 ≤ (b0 % 8) * 262144 + (b1 % 64) * 4096 + (b2 % 64) * 64 + b3 % 64 := by
    split_ifs at h1 <;> omega
  have hhi : (b0 % 8) * 262144 + (b1 % 64) * 4096 + (b2 % 64) * 64 + b3 % 64 ≤ 0x10FFFF := by
    split_ifs at h1 <;> omega
  generalize hr : (b0 % 8) * 262144 + (b1 % 64) * 4096 + (b2 % 64) * 64 + b3 % 64 = r at *
  have hsur : ¬ (r > 0x10FFFF ∨ (0xD800 ≤ r ∧ r ≤ 0xDFFF)) := by omega
  have e0 : (r >>> 18) % 256 = b0 % 8 := by
    rw [Nat.shiftRight_eq_div_pow]; omega
  have e1 : ((r >>> 12) % 256) &&& 0x3F = b1 % 64 := by
    rw [and_mask 6 63 _ rfl, Nat.shiftRight_eq_div_pow]; omega
  have e2 : ((r >>> 6) % 256) &&& 0x3F = b2 % 64 := by
    rw [and_mask 6 63 _ rfl, Nat.shiftRight_eq_div_pow]; omega
  have e3 : (r % 256) &&& 0x3F = b3 % 64 := by
    rw [and_mask 6 63 _ rfl]; omega
  have e4 : 0xF0 ||| (b0 % 8) = b0 := by
    rw [const_or_eq_add 30 3 0xF0 _ rfl (by omega)]; omega
  have e5 : 0x80 ||| (b1 % 64) = b1 := by
    rw [const_or_eq_add 2 6 0x80 _ rfl (by omega)]; omega
  have e6 : 0x80 ||| (b2 % 64) = b2 := by
    rw [const_or_eq_add 2 6 0x80 _ rfl (by omega)]; omega
  have e7 : 0x80 ||| (b3 % 64) = b3 := by
    rw [const_or_eq_add 2 6 0x80 _ rfl (by omega)]; omega
  unfold EncodeRune
  rw [if_neg (by omega), if_neg (by omega)]
  simp only [if_neg hsur]
  rw [if_neg (by omega), e0, e1, e2, e3, e4, e5, e6, e7]
theorem take_min_length {α : Type} (l : List α) (n : Nat) :
    l.take (min l.length n) = l.take n := by
  rcases Nat.le_total l.length n with h | h
  · rw [Nat.min_eq_left h, List.take_of_length_le (Nat.le_refl _), List.take_of_length_le h]
  · rw [Nat.min_eq_right h]

theorem emit_some (p t r : GoString) : emit p (some (t, r)) = some (p ++ t, r) := rfl

theorem not_safe_cases : ∀ b, b < 128 → htmlSafeSet b = false →
    b < 0x20 ∨ b = 0x22 ∨ b = 0x26 ∨ b = 0x3C ∨ b = 0x3E ∨ b = 0x5C := by
  intro b hb hs
  simp only [htmlSafeSet, decide_eq_false_iff_not] at hs
  omega

theorem hex_digits : ∀ b, b < 128 →
    hexDigit (hex (b >>> 4)) = some (b / 16) ∧ hexDigit (hex (b &&& 0xF)) = some (b % 16) := by
  decide

theorem unquote_u00 (b : Nat) (hb : b < 128) (fuel : Nat) (tail : GoString) :
    unquoteLoop (fuel + 1) (0x5C :: 0x75 :: 0x30 :: 0x30 :: hex (b >>> 4) :: hex (b &&& 0xF) :: tail)
      = emit [b] (unquoteLoop fuel tail) := by
  obtain ⟨h1, h2⟩ := hex_digits b hb
  have h0 : hexDigit 0x30 = some 0 := by decide
  have hg : getu4 (0x5C :: 0x75 :: 0x30 :: 0x30 :: hex (b >>> 4) :: hex (b &&& 0xF) :: tail)
      = some b := by
    simp only [getu4, h0, h1, h2]
    simp
    omega
  have hsur : utf16IsSurrogate b = false := by
    simp only [utf16IsSurrogate, decide_eq_false_iff_not]; omega
  have henc : EncodeRune b = [b] := by
    unfold EncodeRune
    rw [if_pos (by omega), Nat.mod_eq_of_lt (by omega)]
  rw [unquoteLoop.eq_def]
  simp only [hg, hsur, henc]
  simp

theorem unquote_safe (b : Nat) (hb : b < 128) (hs : htmlSafeSet b = true) (fuel : Nat)
    (tail : GoString) :
    unquoteLoop (fuel + 1) (b :: tail) = emit [b] (unquoteLoop fuel tail) := by
  simp only [htmlSafeSet, decide_eq_true_eq] at hs
  rw [unquoteLoop.eq_def]
  simp only []
  rw [if_neg (by omega), if_neg (by omega), if_neg (by omega),
    if_pos (by simp only [RuneSelf]; omega)]

theorem unquote_short (b e : Nat) (fuel : Nat) (tail : GoString)
    (h : (e = 0x22 ∧ b = 0x22) ∨ (e = 0x5C ∧ b = 0x5C) ∨ (e = 0x62 ∧ b = 0x08)
      ∨ (e = 0x66 ∧ b = 0x0C) ∨ (e = 0x6E ∧ b = 0x0A) ∨ (e = 0x72 ∧ b = 0x0D)
      ∨ (e = 0x74 ∧ b = 0x09)) :
    unquoteLoop (fuel + 1) (0x5C :: e :: tail) = emit [b] (unquoteLoop fuel tail) := by
  rw [unquoteLoop.eq_def]
  rcases h with h | h | h | h | h | h | h <;> obtain ⟨rfl, rfl⟩ := h <;> simp

theorem unquote_escapeByte (b : Nat) (hb : b < 128) (fuel : Nat) (tail : GoString) :
    unquoteLoop (fuel + 1) (escapeByte b ++ tail) = emit [b] (unquoteLoop fuel tail) := by
  unfold escapeByte
  split_ifs with h1 h2 h3 h4 h5 h6
  · rcases h1 with rfl | rfl
    · exact unquote_short _ _ fuel tail (Or.inr (Or.inl ⟨rfl, rfl⟩))
    · exact unquote_short _ _ fuel tail (Or.inl ⟨rfl, rfl⟩)
  · exact unquote_short b 0x62 fuel tail (Or.inr (Or.inr (Or.inl ⟨rfl, h2⟩)))
  · exact unquote_short b 0x66 fuel tail (Or.inr (Or.inr (Or.inr (Or.inl ⟨rfl, h3⟩))))
  · exact unquote_short b 0x6E fuel tail
      (Or.inr (Or.inr (Or.inr (Or.inr (Or.inl ⟨rfl, h4⟩)))))
  · exact unquote_short b 0x72 fuel tail
      (Or.inr (Or.inr (Or.inr (Or.inr (Or.inr (Or.inl ⟨rfl, h5⟩))))))
  · exact unquote_short b 0x74 fuel tail
      (Or.inr (Or.inr (Or.inr (Or.inr (Or.inr (Or.inr ⟨rfl, h6⟩))))))
  · exact unquote_u00 b hb fuel tail

theorem escapeByte_length (b : Nat) : 2 ≤ (escapeByte b).length := by
  unfold escapeByte
  split_ifs <;> simp [lit]

theorem unquote_rune (c : Nat) (tl : GoString) (hc : 0x80 ≤ c) (fuel : Nat) :
    unquoteLoop (fuel + 1) (c :: tl)
      = emit (EncodeRune (DecodeRune (c :: tl)).1)
          (unquoteLoop fuel ((c :: tl).drop (DecodeRune (c :: tl)).2)) := by
  rw [unquoteLoop.eq_def]
  simp only []
  rw [if_neg (by omega), if_neg (by omega), if_neg (by omega),
    if_neg (by simp only [RuneSelf]; omega)]

theorem unquote_u202 (c : Nat) (hc : c = 0x2028 ∨ c = 0x2029) (fuel : Nat) (tail : GoString) :
    unquoteLoop (fuel + 1) (lit "\\u202" ++ [hex (c &&& 0xF)] ++ tail)
      = emit (EncodeRune c) (unquoteLoop fuel tail) := by
  have hl : lit "\\u202" = [0x5C, 0x75, 0x32, 0x30, 0x32] := by decide
  have h2 : hexDigit 0x32 = some 2 := by decide
  have h0 : hexDigit 0x30 = some 0 := by decide
  have hh : hexDigit (hex (c &&& 0xF)) = some (c % 16) := by
    rcases hc with rfl | rfl <;> decide
  have hg : getu4 (0x5C :: 0x75 :: 0x32 :: 0x30 :: 0x32 :: hex (c &&& 0xF) :: tail) = some c := by
    simp only [getu4, h0, h2, hh]
    simp
    omega
  have hsur : utf16IsSurrogate c = false := by
    simp only [utf16IsSurrogate, decide_eq_false_iff_not]; omega
  rw [hl]
  simp only [List.cons_append, List.nil_append]
  rw [unquoteLoop.eq_def]
  simp only [hg, hsur]
  simp

theorem seqWidth_cases (b : Nat) (rest : GoString) (h : seqWidth (b :: rest) ≠ 0) :
    (b < 0x80 ∧ seqWidth (b :: rest) = 1)
    ∨ (∃ b1 r, rest = b1 :: r ∧ (0xC2 ≤ b ∧ b ≤ 0xDF) ∧ (0x80 ≤ b1 ∧ b1 ≤ 0xBF)
        ∧ seqWidth (b :: rest) = 2)
    ∨ (∃ b1 b2 r, rest = b1 :: b2 :: r ∧ (0xE0 ≤ b ∧ b ≤ 0xEF)
        ∧ ((if b = 0xE0 then 0xA0 else 0x80) ≤ b1 ∧ b1 ≤ (if b = 0xED then 0x9F else 0xBF))
        ∧ (0x80 ≤ b2 ∧ b2 ≤ 0xBF) ∧ seqWidth (b :: rest) = 3)
    ∨ (∃ b1 b2 b3 r, rest = b1 :: b2 :: b3 :: r ∧ (0xF0 ≤ b ∧ b ≤ 0xF4)
        ∧ ((if b = 0xF0 then 0x90 else 0x80) ≤ b1 ∧ b1 ≤ (if b = 0xF4 then 0x8F else 0xBF))
        ∧ (0x80 ≤ b2 ∧ b2 ≤ 0xBF) ∧ (0x80 ≤ b3 ∧ b3 ≤ 0xBF) ∧ seqWidth (b :: rest) = 4) := by
  by_cases h1 : b < 0x80
  · left
    exact ⟨h1, by simp only [seqWidth, if_pos h1]⟩
  · by_cases h2 : 0xC2 ≤ b ∧ b ≤ 0xDF
    · right; left
      match rest, h with
      | [], h => simp [seqWidth, h1, h2] at h
      | b1 :: r, h =>
        simp only [seqWidth, if_neg h1, if_pos h2] at h ⊢
        by_cases c : 0x80 ≤ b1 ∧ b1 ≤ 0xBF
        · exact ⟨b1, r, rfl, h2, c, by rw [if_pos c]⟩
        · rw [if_neg c] at h; exact absurd rfl h
    · by_cases h3 : 0xE0 ≤ b ∧ b ≤ 0xEF
      · right; right; left
        match rest, h with
        | [], h => simp [seqWidth, h1, h2, h3] at h
        | [_], h => simp [seqWidth, h1, h2, h3] at h
        | b1 :: b2 :: r, h =>
          simp only [seqWidth, if_neg h1, if_neg h2, if_pos h3] at h ⊢
          by_cases c : ((if b = 0xE0 then 0xA0 else 0x80) ≤ b1
              ∧ b1 ≤ (if b = 0xED then 0x9F else 0xBF)) ∧ (0x80 ≤ b2 ∧ b2 ≤ 0xBF)
          · exact ⟨b1, b2, r, rfl, h3, c.1, c.2, by rw [if_pos c]⟩
          · rw [if_neg c] at h; exact absurd rfl h
      · by_cases h4 : 0xF0 ≤ b ∧ b ≤ 0xF4
        · right; right; right
          match rest, h with
          | [], h => simp [seqWidth, h1, h2, h3, h4] at h
          | [_], h => simp [seqWidth, h1, h2, h3, h4] at h
          | [_, _], h => simp [seqWidth, h1, h2, h3, h4] at h
          | b1 :: b2 :: b3 :: r, h =>
            simp only [seqWidth, if_neg h1, if_neg h2, if_neg h3, if_pos h4] at h ⊢
            by_cases c : ((if b = 0xF0 then 0x90 else 0x80) ≤ b1
                ∧ b1 ≤ (if b = 0xF4 then 0x8F else 0xBF)) ∧ (0x80 ≤ b2 ∧ b2 ≤ 0xBF)
                ∧ (0x80 ≤ b3 ∧ b3 ≤ 0xBF)
            · exact ⟨b1, b2, b3, r, rfl, h4, c.1, c.2.1, c.2.2, by rw [if_pos c]⟩
            · rw [if_neg c] at h; exact absurd rfl h
        · simp [seqWidth, h1, h2, h3, h4] at h

theorem appendStringLoop_nil (f : Nat) : appendStringLoop f [] = [] := by
  cases f <;> rfl

theorem appendStringLoop_safe (b : Nat) (hb : b < 128) (hs : htmlSafeSet b = true) (g : Nat)
    (t : GoString) : appendStringLoop (g + 1) (b :: t) = b :: appendStringLoop g t := by
  rw [appendStringLoop, if_pos (by simp only [RuneSelf]; omega), if_pos hs]

theorem appendStringLoop_escape (b : Nat) (hb : b < 128) (hs : htmlSafeSet b = false) (g : Nat)
    (t : GoString) :
    appendStringLoop (g + 1) (b :: t) = escapeByte b ++ appendStringLoop g t := by
  rw [appendStringLoop, if_pos (by simp only [RuneSelf]; omega), if_neg (by simp [hs])]

theorem appendStringLoop_rune (b : Nat) (bt r : GoString) (c : Nat) (hb : 0x80 ≤ b)
    (hlen : 2 ≤ (b :: bt).length ∧ (b :: bt).length ≤ 4)
    (hdec : ∀ tl, DecodeRune (b :: bt ++ tl) = (c, (b :: bt).length)) (g : Nat) :
    appendStringLoop (g + 1) (b :: bt ++ r)
      = (if c = 0x2028 ∨ c = 0x2029 then lit "\\u202" ++ [hex (c &&& 0xF)] else b :: bt)
          ++ appendStringLoop g r := by
  have htake : (b :: (bt ++ r)).take 4 = b :: bt ++ r.take (4 - (b :: bt).length) := by
    rw [← List.cons_append, List.take_append_eq_append_take, List.take_of_length_le hlen.2]
  have h1 : DecodeRune ((b :: (bt ++ r)).take (min (b :: (bt ++ r)).length 4))
      = (c, (b :: bt).length) := by
    rw [take_min_length, htake, hdec]
  have hdrop : (b :: (bt ++ r)).drop (b :: bt).length = r := by
    rw [← List.cons_append, List.drop_left]
  have htk : (b :: (bt ++ r)).take (b :: bt).length = b :: bt := by
    rw [← List.cons_append, List.take_left]
  rw [List.cons_append, appendStringLoop, if_neg (by simp only [RuneSelf]; omega)]
  simp only [h1]
  rw [if_neg (by omega), hdrop, htk]
  split_ifs <;> rfl

/-- One rune of two to four bytes: the encoder's output for it is read back
by the decoder. -/
theorem unquote_rune_step (b : Nat) (bt r rest : GoString) (c : Nat) (hb : 0x80 ≤ b)
    (hlen : 2 ≤ (b :: bt).length ∧ (b :: bt).length ≤ 4)
    (hdec : ∀ tl, DecodeRune (b :: bt ++ tl) = (c, (b :: bt).length))
    (henc : EncodeRune c = b :: bt) (g f2 : Nat)
    (ih : ∀ f, (appendStringLoop g r).length < f →
      unquoteLoop f (appendStringLoop g r ++ 0x22 :: rest) = some (r, rest))
    (hf : (appendStringLoop (g + 1) (b :: bt ++ r)).length < f2) :
    unquoteLoop f2 (appendStringLoop (g + 1) (b :: bt ++ r) ++ 0x22 :: rest)
      = some (b :: bt ++ r, rest) := by
  rw [appendStringLoop_rune b bt r c hb hlen hdec g] at hf ⊢
  obtain ⟨h, rfl⟩ : ∃ h, f2 = h + 1 := ⟨f2 - 1, by omega⟩
  by_cases hc : c = 0x2028 ∨ c = 0x2029
  · rw [if_pos hc] at hf ⊢
    rw [List.append_assoc, unquote_u202 c hc h, henc, ih h, emit_some]
    simp only [List.length_append, List.length_cons, List.length_nil, lit] at hf
    simp at hf
    omega
  · rw [if_neg hc] at hf ⊢
    rw [List.append_assoc, List.cons_append, unquote_rune b _ hb h, ← List.cons_append, hdec,
      henc]
    simp only
    rw [List.drop_left, ih h, emit_some]
    simp only [List.length_append, List.length_cons] at hf hlen
    omega

theorem unquote_quote (h : Nat) (rest : GoString) :
    unquoteLoop (h + 1) (0x22 :: rest) = some ([], rest) := by
  rw [unquoteLoop.eq_def]
  simp only []
  rfl

/-- The decoder reads back what the encoder's loop wrote for a well-formed
UTF-8 string, given fuel for every iteration of both. -/
theorem unquote_appendStringLoop (k : Nat) :
    ∀ (s : GoString), validLoop k s = true →
      ∀ (f1 f2 : Nat) (rest : GoString), s.length ≤ f1 → (appendStringLoop f1 s).length < f2 →
        unquoteLoop f2 (appendStringLoop f1 s ++ 0x22 :: rest) = some (s, rest) := by
  induction k with
  | zero =>
    intro s hv f1 f2 rest _ hf
    match s, hv, hf with
    | [], _, hf =>
      rw [appendStringLoop_nil] at hf ⊢
      obtain ⟨h, rfl⟩ : ∃ h, f2 = h + 1 := ⟨f2 - 1, by simp only [List.length_nil] at hf; omega⟩
      rw [List.nil_append, unquote_quote]
    | _ :: _, hv, _ => exact absurd hv (by simp [validLoop])
  | succ k ih =>
    intro s hv f1 f2 rest h1 hf
    match s, hv, h1, hf with
    | [], _, _, hf =>
      rw [appendStringLoop_nil] at hf ⊢
      obtain ⟨h, rfl⟩ : ∃ h, f2 = h + 1 := ⟨f2 - 1, by simp only [List.length_nil] at hf; omega⟩
      rw [List.nil_append, unquote_quote]
    | b :: t, hv, h1, hf =>
      obtain ⟨g, rfl⟩ : ∃ g, f1 = g + 1 := ⟨f1 - 1, by simp only [List.length_cons] at h1; omega⟩
      simp only [List.length_cons] at h1
      simp only [validLoop, Bool.and_eq_true, decide_eq_true_eq] at hv
      obtain ⟨hw, hv⟩ := hv
      rcases seqWidth_cases b t hw with ⟨hb, e⟩ | ⟨b1, r, rfl, h0, hb1, e⟩
        | ⟨b1, b2, r, rfl, h0, hb1, hb2, e⟩ | ⟨b1, b2, b3, r, rfl, h0, hb1, hb2, hb3, e⟩
      · rw [e, List.drop_one, List.tail_cons] at hv
        cases hsafe : htmlSafeSet b with
        | true =>
          rw [appendStringLoop_safe b hb hsafe] at hf ⊢
          obtain ⟨h, rfl⟩ : ∃ h, f2 = h + 1 := ⟨f2 - 1, by simp only [List.length_cons] at hf; omega⟩
          simp only [List.length_cons] at hf
          rw [List.cons_append, unquote_safe b hb hsafe,
            ih t hv g h rest (by omega) (by omega), emit_some]
          rfl
        | false =>
          rw [appendStringLoop_escape b hb hsafe] at hf ⊢
          obtain ⟨h, rfl⟩ : ∃ h, f2 = h + 1 := ⟨f2 - 1, by omega⟩
          have hl := escapeByte_length b
          simp only [List.length_append] at hf
          rw [List.append_assoc, unquote_escapeByte b hb,
            ih t hv g h rest (by omega) (by omega), emit_some]
          rfl
      · rw [e] at hv
        simp only [List.length_cons] at h1
        exact unquote_rune_step b [b1] r rest _ (by omega) (by simp)
          (fun tl => DecodeRune_two b b1 tl h0 hb1)
          (EncodeRune_two b b1 h0 hb1) g f2
          (fun f hf2 => ih r hv g f rest (by omega) hf2) hf
      · rw [e] at hv
        simp only [List.length_cons] at h1
        exact unquote_rune_step b [b1, b2] r rest _ (by omega) (by simp)
          (fun tl => DecodeRune_three b b1 b2 tl h0 hb1 hb2)
          (EncodeRune_three b b1 b2 h0 hb1 hb2) g f2
          (fun f hf2 => ih r hv g f rest (by omega) hf2) hf
      · rw [e] at hv
        simp only [List.length_cons] at h1
        exact unquote_rune_step b [b1, b2, b3] r rest _ (by omega) (by simp)
          (fun tl => DecodeRune_four b b1 b2 b3 tl h0 hb1 hb2 hb3)
          (EncodeRune_four b b1 b2 b3 h0 hb1 hb2 hb3) g f2
          (fun f hf2 => ih r hv g f rest (by omega) hf2) hf

theorem appendString_cons (s rest : GoString) :
    appendString s ++ rest = 0x22 :: (appendStringLoop s.length s ++ 0x22 :: rest) := by
  simp [appendString]

theorem appendString_length (s : GoString) : 2 ≤ (appendString s).length := by
  simp only [appendString, List.length_append, List.length_cons, List.length_nil]
  omega

theorem skipSpace_cons (c : Nat) (rest : GoString) (h : isSpace c = false) :
    skipSpace (c :: rest) = c :: rest := by
  rw [skipSpace, h]
  rfl

theorem skipSpace_appendString (s rest : GoString) :
    skipSpace (appendString s ++ rest) = appendString s ++ rest := by
  rw [appendString_cons]
  exact skipSpace_cons _ _ (by decide)

/-- A string literal written by the encoder for a well-formed UTF-8 string is
decoded to that string. -/
theorem decodeString_appendString (s rest : GoString) (hv : validUTF8 s = true) :
    decodeString (appendString s ++ rest) = some (s, rest) := by
  rw [appendString_cons, decodeString, if_pos rfl]
  exact unquote_appendStringLoop s.length s hv s.length _ rest (Nat.le_refl _)
    (by simp only [List.length_append, List.length_cons]; omega)

theorem decodeValue_appendString (s rest : GoString) (hv : validUTF8 s = true) :
    decodeString (skipSpace (appendString s ++ rest)) = some (s, rest) := by
  rw [skipSpace_appendString, decodeString_appendString s rest hv]

theorem decodeMessageFields_step (fuel : Nat) (key v rest : GoString) (c : Nat) (m m1 : Message)
    (hk : validUTF8 key = true) (hv : validUTF8 v = true)
    (hset : (if key = lit "role" then some { m with Role := v }
      else if key = lit "content" then some { m with Content := v } else none) = some m1)
    (hc : isSpace c = false) (hfuel : 1 ≤ fuel) :
    decodeMessageFields fuel (appendString key ++ 0x3A :: (appendString v ++ c :: rest)) m
      = if c = 0x2C then decodeMessageFields (fuel - 1) rest m1
        else if c = 0x7D then some (m1, rest) else none := by
  obtain ⟨f, rfl⟩ : ∃ f, fuel = f + 1 := ⟨fuel - 1, by omega⟩
  rw [decodeMessageFields, decodeValue_appendString key _ hk]
  simp only [skipSpace_cons 0x3A _ (by decide), ne_eq, not_true_eq_false, if_false]
  rw [decodeValue_appendString v _ hv]
  simp only [hset, skipSpace_cons c _ hc, Nat.add_sub_cancel]

theorem decodeMessage_encodeMessage (u p rest : GoString) (hu : validUTF8 u = true)
    (hp : validUTF8 p = true) :
    decodeMessage (0x7B :: (appendString (lit "role") ++ 0x3A :: (appendString u ++ 0x2C ::
      (appendString (lit "content") ++ 0x3A :: (appendString p ++ 0x7D :: rest)))))
      = some ({ Role := u, Content := p }, rest) := by
  have h1 := appendString_length (lit "role")
  have h2 := appendString_length u
  rw [decodeMessage, skipSpace_cons 0x7B _ (by decide)]
  simp only [ne_eq, not_true_eq_false, if_false]
  rw [skipSpace_appendString]
  rw [appendString_cons (lit "role")]
  simp only [show ¬ ((0x22 : Nat) = 0x7D) by decide, if_false]
  rw [← appendString_cons (lit "role")]
  rw [decodeMessageFields_step _ (lit "role") u _ 0x2C _ { Role := u, Content := [] }
    (by decide) hu (by simp) (by decide), if_pos rfl]
  rw [decodeMessageFields_step _ (lit "content") p _ 0x7D _ { Role := u, Content := p }
    (by decide) hp (by rw [if_neg (by decide), if_pos rfl]) (by decide),
    if_neg (by decide), if_pos rfl]
  · simp only [List.length_append, List.length_cons]
    omega
  · simp only [List.length_append, List.length_cons]
    omega

theorem decodeMessages_single (u p rest : GoString) (hu : validUTF8 u = true)
    (hp : validUTF8 p = true) :
    decodeMessages (0x5B :: 0x7B :: (appendString (lit "role") ++ 0x3A :: (appendString u ++
      0x2C :: (appendString (lit "content") ++ 0x3A :: (appendString p ++ 0x7D :: 0x5D :: rest)))))
      = some ([{ Role := u, Content := p }], rest) := by
  rw [decodeMessages, skipSpace_cons 0x5B _ (by decide)]
  simp only [ne_eq, not_true_eq_false, if_false]
  rw [skipSpace_cons 0x7B _ (by decide)]
  simp only [show ¬ ((0x7B : Nat) = 0x5D) by decide, if_false, List.length_cons]
  rw [decodeMessageElems, decodeMessage_encodeMessage u p _ hu hp]
  simp only [skipSpace_cons 0x5D _ (by decide), show ¬ ((0x5D : Nat) = 0x2C) by decide,
    if_false, if_true]

theorem jsonUnmarshal_jsonMarshal (mdl u p : GoString) (hm : validUTF8 mdl = true)
    (hu : validUTF8 u = true) (hp : validUTF8 p = true) :
    jsonUnmarshal (0x7B :: (appendString (lit "model") ++ 0x3A :: (appendString mdl ++ 0x2C ::
      (appendString (lit "messages") ++ 0x3A :: 0x5B :: 0x7B :: (appendString (lit "role") ++
        0x3A :: (appendString u ++ 0x2C :: (appendString (lit "content") ++ 0x3A ::
          (appendString p ++ [0x7D, 0x5D, 0x7D]))))))))
      = some { Model := mdl, Messages := [{ Role := u, Content := p }] } := by
  have h1 := appendString_length (lit "model")
  have h2 := appendString_length mdl
  rw [jsonUnmarshal, skipSpace_cons 0x7B _ (by decide)]
  simp only [ne_eq, not_true_eq_false, if_false]
  rw [skipSpace_appendString, appendString_cons (lit "model")]
  simp only [show ¬ ((0x22 : Nat) = 0x7D) by decide, if_false]
  rw [← appendString_cons (lit "model")]
  obtain ⟨f, hf⟩ : ∃ f, (appendString (lit "model") ++ 0x3A :: (appendString mdl ++ 0x2C ::
      (appendString (lit "messages") ++ 0x3A :: 0x5B :: 0x7B :: (appendString (lit "role") ++
        0x3A :: (appendString u ++ 0x2C :: (appendString (lit "content") ++ 0x3A ::
          (appendString p ++ [0x7D, 0x5D, 0x7D]))))))).length = f + 2 :=
    ⟨(appendString (lit "model") ++ 0x3A :: (appendString mdl ++ 0x2C ::
      (appendString (lit "messages") ++ 0x3A :: 0x5B :: 0x7B :: (appendString (lit "role") ++
        0x3A :: (appendString u ++ 0x2C :: (appendString (lit "content") ++ 0x3A ::
          (appendString p ++ [0x7D, 0x5D, 0x7D]))))))).length - 2, by
      simp only [List.length_append, List.length_cons]
      omega⟩
  rw [hf, decodeRequestFields, decodeValue_appendString (lit "model") _ (by decide)]
  simp only [skipSpace_cons 0x3A _ (by decide), ne_eq, not_true_eq_false, if_false, if_true]
  rw [decodeValue_appendString mdl _ hm]
  simp only [Option.map_some', skipSpace_cons 0x2C _ (by decide), if_true]
  rw [decodeRequestFields, decodeValue_appendString (lit "messages") _ (by decide)]
  simp only [skipSpace_cons 0x3A _ (by decide), ne_eq, not_true_eq_false, if_false]
  rw [if_neg (by decide), if_pos ⟨trivial, trivial⟩]
  rw [show (appendString p ++ [0x7D, 0x5D, 0x7D]) = appendString p ++ 0x7D :: 0x5D :: [0x7D]
    from rfl, decodeMessages_single u p _ hu hp]
  simp only [Option.map_some', skipSpace_cons 0x7D _ (by decide),
    show ¬ ((0x7D : Nat) = 0x2C) by decide, if_false, if_true]
  simp [skipSpace]

theorem jsonMarshal_eq (mdl u p : GoString) :
    jsonMarshal { Model := mdl, Messages := [{ Role := u, Content := p }] }
      = .ok (0x7B :: (appendString (lit "model") ++ 0x3A :: (appendString mdl ++ 0x2C ::
      (appendString (lit "messages") ++ 0x3A :: 0x5B :: 0x7B :: (appendString (lit "role") ++
        0x3A :: (appendString u ++ 0x2C :: (appendString (lit "content") ++ 0x3A ::
          (appendString p ++ [0x7D, 0x5D, 0x7D])))))))) := by
  have e1 : lit "\x7b\"model\":" = 0x7B :: (appendString (lit "model") ++ [0x3A]) := by decide
  have e2 : lit ",\"messages\":" = 0x2C :: (appendString (lit "messages") ++ [0x3A]) := by
    decide
  have e3 : lit "\x7b\"role\":" = 0x7B :: (appendString (lit "role") ++ [0x3A]) := by decide
  have e4 : lit ",\"content\":" = 0x2C :: (appendString (lit "content") ++ [0x3A]) := by
    decide
  have e5 : lit "\x7d" = [0x7D] := by decide
  have e6 : lit "[" = [0x5B] := by decide
  have e7 : lit "]" = [0x5D] := by decide
  simp only [jsonMarshal, encodeMessages, encodeMessage, stringsJoin, List.map_cons,
    List.map_nil, e1, e2, e3, e4, e5, e6, e7, List.append_assoc, List.cons_append,
    List.nil_append]

/-! ## Lemmas about `main` -/

theorem fmtSprintln_one (a : GoString) : fmtSprintln [a] = a ++ [10] := by
  simp [fmtSprintln, stringsJoin, lit]

theorem fmtSprintln_two (a b : GoString) : fmtSprintln [a, b] = a ++ [32] ++ b ++ [10] := by
  simp [fmtSprintln, stringsJoin, lit]

theorem foldl_join (sep : GoString) (rest : List GoString) (e : GoString) :
    rest.foldl (fun b s => b ++ sep ++ s) e = e ++ (rest.map (fun s => sep ++ s)).flatten := by
  induction rest generalizing e with
  | nil => simp
  | cons a t ih =>
    rw [List.foldl_cons, ih]
    simp [List.append_assoc]

theorem intercalate_cons_cons (sep e a : GoString) (t : List GoString) :
    List.intercalate sep (e :: a :: t) = e ++ sep ++ List.intercalate sep (a :: t) := by
  simp [List.intercalate, List.intersperse]

theorem stringsJoin_eq_intercalate (elems : List GoString) (sep : GoString) :
    stringsJoin elems sep = List.intercalate sep elems := by
  match elems with
  | [] => simp [stringsJoin, List.intercalate]
  | [e] => simp [stringsJoin, List.intercalate]
  | e :: a :: t =>
    simp only [stringsJoin, foldl_join]
    generalize a :: t = l
    induction l generalizing e with
    | nil => simp [List.intercalate]
    | cons b t ih =>
      cases t with
      | nil => simp [List.intercalate, List.intersperse]
      | cons c t2 =>
        rw [intercalate_cons_cons, intercalate_cons_cons]
        have h := ih b
        rw [intercalate_cons_cons] at h
        simp only [List.map_cons, List.flatten_cons, List.append_assoc] at h ⊢
        rw [← h]

theorem main_eq (w : World) :
    main w =
      if osGetenv w apiKeyVar = [] then
        { stderr := dotenvNotice w ++ lit "OPENAI_API_KEY is not set\n", exitCode := 1,
          site := .keyNotSet }
      else if w.Args.length < 2 then
        { stderr := dotenvNotice w ++ lit "usage: chatgpt-cli <prompt>\n", exitCode := 1,
          site := .usage }
      else
        match w.clientDo theClient (builtRequest w) with
        | .error err =>
          { stderr := dotenvNotice w ++ (lit "request failed: " ++ err ++ lit "\n"),
            sent := [builtRequest w], exitCode := 1, site := .requestFailed }
        | .ok resp =>
          if resp.StatusCode ≠ 200 then
            { stderr := dotenvNotice w
                ++ (lit "API error: " ++ resp.Status ++ lit "\n" ++ resp.Body.data ++ lit "\n"),
              sent := [builtRequest w], exitCode := 1, site := .apiError }
          else
            match w.jsonDecode resp.Body with
            | .error err =>
              { stderr := dotenvNotice w ++ (lit "failed to decode response: " ++ err ++ lit "\n"),
                sent := [builtRequest w], decoded := [resp.Body], exitCode := 1,
                site := .decodeFailed }
            | .ok res =>
              match res.Choices with
              | [] =>
                { stderr := dotenvNotice w ++ lit "no response from model\n",
                  sent := [builtRequest w], decoded := [resp.Body], exitCode := 1,
                  site := .noResponse }
              | choice :: _ =>
                { stdout := choice.Message.Content ++ lit "\n", stderr := dotenvNotice w,
                  sent := [builtRequest w], decoded := [resp.Body], exitCode := 0,
                  site := .returned } := by
  unfold main
  simp only [apiKeyVar]
  split_ifs with h1 h2
  · cases hd : w.dotenvErr <;>
      simp [dotenvNotice, hd, Proc.err, Proc.exit, fmtSprintln_one, lit]
  · cases hd : w.dotenvErr <;>
      simp [dotenvNotice, hd, Proc.err, Proc.exit, fmtSprintln_one, lit]
  · have hs : sliceFrom w.Args 1 = some (w.Args.drop 1) := by
      simp only [sliceFrom]; rw [if_pos (by omega)]
    have hb : headerSet (headerSet [] (lit "Authorization")
          (lit "Bearer " ++ osGetenv w (lit "OPENAI_API_KEY")))
            (lit "Content-Type") (lit "application/json")
        = [(lit "Authorization", lit "Bearer " ++ osGetenv w (lit "OPENAI_API_KEY")),
            (lit "Content-Type", lit "application/json")] := by
      simp [headerSet, lit]
    simp only [hs, jsonMarshal, httpNewRequest, hb, theClient, builtRequest, apiKeyVar]
    cases hd : w.dotenvErr <;> (
      simp only [dotenvNotice, hd]
      cases w.clientDo _ _ with
      | error err => simp [Proc.err, Proc.exit, fmtSprintln_two, lit]
      | ok resp =>
        simp only [StatusOK]
        split_ifs with h3
        · simp [Proc.err, Proc.exit, ioReadAll]
        · cases hj : w.jsonDecode resp.Body with
          | error err => simp [Proc.err, Proc.exit, fmtSprintln_two, lit]
          | ok res =>
            cases hc : res.Choices with
            | nil => simp [hc, Proc.err, Proc.exit, fmtSprintln_one, lit]
            | cons c cs => simp [hc, Proc.err, Proc.out, Proc.exit, fmtSprintln_one, lit, index])

theorem sent_cases (w : World) (req : HttpRequest) (h : req ∈ (main w).sent) :
    req = builtRequest w ∧ osGetenv w apiKeyVar ≠ [] ∧ 2 ≤ w.Args.length := by
  rw [main_eq] at h
  split_ifs at h with h1 h2
  · simp at h
  · simp at h
  · refine ⟨?_, h1, by omega⟩
    revert h
    cases w.clientDo theClient (builtRequest w) with
    | error err => simp
    | ok resp =>
      simp only
      split_ifs
      · simp
      · cases w.jsonDecode resp.Body with
        | error err => simp
        | ok res => simp only; split <;> simp


/-! ## The claims about `main` -/

/-- Claim C1.  When the API key is non-empty, at least one argument is given,
the transport answers the request of the run with status 200 and the body
decodes to a response with at least one choice, standard output is exactly
the content of the first choice followed by one newline, and the exit code
is 0. -/
theorem success_prints_first_choice (w : World) (req : HttpRequest) (resp : HttpResponse)
    (res : ChatCompletionResponse) (choice : Choice) (others : List Choice)
    (hkey : osGetenv w apiKeyVar ≠ []) (hargs : 2 ≤ w.Args.length)
    (hsent : req ∈ (main w).sent)
    (hdo : w.clientDo theClient req = .ok resp) (h200 : resp.StatusCode = 200)
    (hdec : w.jsonDecode resp.Body = .ok res) (hch : res.Choices = choice :: others) :
    (main w).stdout = choice.Message.Content ++ lit "\n" ∧ (main w).exitCode = 0 := by
  obtain ⟨rfl, -, -⟩ := sent_cases w req hsent
  rw [main_eq, if_neg hkey, if_neg (by omega)]
  simp [hdo, h200, hdec, hch]

set_option maxRecDepth 100000 in
/-- Witness for C1: the mocked endpoint that answers `Hello`. -/
theorem success_prints_first_choice_witness :
    (main helloWorld).stdout = lit "Hello\n" ∧ (main helloWorld).exitCode = 0 :=
  success_prints_first_choice helloWorld (builtRequest helloWorld) _ helloResponse _ []
    (by decide) (by decide) (by decide) rfl rfl rfl rfl

/-- Claim C2.  For a non-empty list of prompt arguments (and a non-empty API
key, so that a request is built), the one request of the run carries the
serialization of the request value whose prompt is the arguments in order
with one space between adjacent ones; for a single argument the prompt is
that argument. -/
theorem prompt_is_arguments_joined (w : World) (prog arg : GoString) (more : List GoString)
    (hkey : osGetenv w apiKeyVar ≠ []) (hargs : w.Args = prog :: arg :: more) :
    ∃ req prompt, (main w).sent = [req]
      ∧ jsonMarshal (requestFor prompt) = .ok req.Body
      ∧ prompt = List.intercalate (lit " ") (arg :: more)
      ∧ (more = [] → prompt = arg) := by
  refine ⟨builtRequest w, stringsJoin (arg :: more) (lit " "), ?_, ?_,
    stringsJoin_eq_intercalate _ _, ?_⟩
  · rw [main_eq, if_neg hkey, if_neg (by simp [hargs])]
    cases w.clientDo theClient (builtRequest w) with
    | error err => rfl
    | ok resp =>
      simp only
      split_ifs
      · rfl
      · cases w.jsonDecode resp.Body with
        | error err => rfl
        | ok res => simp only; split <;> rfl
  · simp [jsonMarshal, requestFor, builtRequest, hargs]
  · rintro rfl
    rfl

set_option maxRecDepth 100000 in
/-- Witness for C2: `chatgpt-cli Say hello`. -/
theorem prompt_is_arguments_joined_witness :
    ∃ req prompt, (main helloWorld).sent = [req]
      ∧ jsonMarshal (requestFor prompt) = .ok req.Body
      ∧ prompt = List.intercalate (lit " ") [lit "Say", lit "hello"]
      ∧ ([lit "hello"] = [] → prompt = lit "Say") :=
  prompt_is_arguments_joined helloWorld (lit "chatgpt-cli") (lit "Say") [lit "hello"]
    (by decide) rfl

/-- Claim C3.  When the transport answers the request of the run, the run
ends at the API error exactly if the status code is not 200; then the exit
code is 1, standard error holds the status line and the body bytes as
delivered, standard output is empty, nothing has been handed to the JSON
decoder, and the outcome is the same whatever the decoder would do. -/
theorem api_error_iff_not_ok (w : World) (req : HttpRequest) (resp : HttpResponse)
    (hsent : req ∈ (main w).sent) (hdo : w.clientDo theClient req = .ok resp) :
    ((main w).site = .apiError ↔ resp.StatusCode ≠ 200) ∧
    (resp.StatusCode ≠ 200 →
      (main w).exitCode = 1
      ∧ (main w).stderr = dotenvNotice w
          ++ (lit "API error: " ++ resp.Status ++ lit "\n" ++ resp.Body.data ++ lit "\n")
      ∧ (main w).stdout = []
      ∧ (main w).decoded = []
      ∧ ∀ decode, main { w with jsonDecode := decode } = main w) := by
  obtain ⟨rfl, hkey, hargs⟩ := sent_cases w req hsent
  have hmain := main_eq w
  rw [if_neg hkey, if_neg (by omega), hdo] at hmain
  simp only at hmain
  constructor
  · by_cases h : resp.StatusCode = 200
    · rw [hmain, if_neg (by simpa using h)]
      cases w.jsonDecode resp.Body with
      | error err => simp [h]
      | ok res => simp only; split <;> simp [h]
    · rw [hmain, if_pos h]
      simp [h]
  · intro h
    rw [hmain, if_pos h]
    refine ⟨rfl, rfl, rfl, rfl, ?_⟩
    intro decode
    have hb : builtRequest { w with jsonDecode := decode } = builtRequest w := rfl
    have hk : osGetenv { w with jsonDecode := decode } apiKeyVar = osGetenv w apiKeyVar := rfl
    have hn : dotenvNotice { w with jsonDecode := decode } = dotenvNotice w := rfl
    rw [main_eq, hk, hb, hn, if_neg hkey, if_neg (by simpa using hargs)]
    simp only [hdo, if_pos h]

set_option maxRecDepth 100000 in
/-- Witness for C3: status 401 with a body that is a valid choices document. -/
theorem api_error_iff_not_ok_witness :
    ((main unauthorizedWorld).site = .apiError ↔ (401 : Int) ≠ 200) ∧
    ((401 : Int) ≠ 200 →
      (main unauthorizedWorld).exitCode = 1
      ∧ (main unauthorizedWorld).stderr = dotenvNotice unauthorizedWorld
          ++ (lit "API error: " ++ lit "401 Unauthorized" ++ lit "\n" ++ lit
            "\x7b\"choices\":[\x7b\"message\":\x7b\"role\":\"assistant\",\"content\":\"Hello\"\x7d\x7d]\x7d"
            ++ lit "\n")
      ∧ (main unauthorizedWorld).stdout = []
      ∧ (main unauthorizedWorld).decoded = []
      ∧ ∀ decode, main { unauthorizedWorld with jsonDecode := decode }
          = main unauthorizedWorld) :=
  api_error_iff_not_ok unauthorizedWorld (builtRequest unauthorizedWorld) _ (by decide) rfl

/-- Claim C4.  When `OPENAI_API_KEY` is unset or empty once the configuration
file has been consulted, the run exits with code 1, has written the
missing-key message to standard error and nothing to standard output, and
has made no network call, whatever the arguments and the transport. -/
theorem missing_key_exits_before_network (w : World)
    (hkey : w.lookupEnv apiKeyVar = none ∨ w.lookupEnv apiKeyVar = some []) :
    (main w).exitCode = 1
    ∧ (main w).stderr = dotenvNotice w ++ lit "OPENAI_API_KEY is not set\n"
    ∧ (main w).stderr ≠ []
    ∧ (main w).stdout = []
    ∧ (main w).sent = [] := by
  have h : osGetenv w apiKeyVar = [] := by
    rcases hkey with h | h <;> simp [osGetenv, h]
  rw [main_eq, if_pos h]
  refine ⟨rfl, rfl, ?_, rfl, rfl⟩
  simp [lit]

set_option maxRecDepth 100000 in
/-- Witness for C4: the key is set to the empty string. -/
theorem missing_key_exits_before_network_witness :
    (main emptyKeyWorld).exitCode = 1
    ∧ (main emptyKeyWorld).stderr
        = dotenvNotice emptyKeyWorld ++ lit "OPENAI_API_KEY is not set\n"
    ∧ (main emptyKeyWorld).stderr ≠ []
    ∧ (main emptyKeyWorld).stdout = []
    ∧ (main emptyKeyWorld).sent = [] :=
  missing_key_exits_before_network emptyKeyWorld (Or.inr (by decide))

/-- Claim C5.  When no prompt argument is given (the argument vector holds
at most the program name), the run exits with code 1, writes nothing to
standard output and makes no network call, whatever the environment and the
transport. -/
theorem no_arguments_exits_before_network (w : World) (hargs : w.Args.length ≤ 1) :
    (main w).exitCode = 1 ∧ (main w).stdout = [] ∧ (main w).sent = []
    ∧ (main w).stderr ≠ [] := by
  rw [main_eq]
  split_ifs with h1 h2
  · simp [lit]
  · simp [lit]
  · omega

set_option maxRecDepth 100000 in
/-- Witness for C5: the argument vector is the program name alone. -/
theorem no_arguments_exits_before_network_witness :
    (main noArgsWorld).exitCode = 1 ∧ (main noArgsWorld).stdout = []
    ∧ (main noArgsWorld).sent = [] ∧ (main noArgsWorld).stderr ≠ [] :=
  no_arguments_exits_before_network noArgsWorld (by decide)

/-- Claim C6.  When the transport answers the request of the run with status
200 and the body decodes to a response with no choice, the run exits with
code 1 at the empty-response error, with its message on standard error and
nothing on standard output; and no run of the program ends in a panic: the
first choice is only indexed when there is one. -/
theorem empty_choices_is_an_error (w : World) (req : HttpRequest) (resp : HttpResponse)
    (res : ChatCompletionResponse)
    (hsent : req ∈ (main w).sent) (hdo : w.clientDo theClient req = .ok resp)
    (h200 : resp.StatusCode = 200) (hdec : w.jsonDecode resp.Body = .ok res)
    (hch : res.Choices = []) :
    ((main w).exitCode = 1
      ∧ (main w).site = .noResponse
      ∧ (main w).stderr = dotenvNotice w ++ lit "no response from model\n"
      ∧ (main w).stdout = [])
    ∧ ∀ v : World, (main v).site ≠ .panicked ∧ (main v).exitCode ≠ 2 := by
  obtain ⟨rfl, hkey, hargs⟩ := sent_cases w req hsent
  constructor
  · rw [main_eq, if_neg hkey, if_neg (by omega)]
    simp [hdo, h200, hdec, hch]
  · intro v
    rw [main_eq]
    split_ifs
    · simp
    · simp
    · cases v.clientDo theClient (builtRequest v) with
      | error err => simp
      | ok r =>
        simp only
        split_ifs
        · simp
        · cases v.jsonDecode r.Body with
          | error err => simp
          | ok res => simp only; split <;> simp

set_option maxRecDepth 100000 in
/-- Witness for C6: the mocked endpoint that answers with no choice. -/
theorem empty_choices_is_an_error_witness :
    ((main emptyChoicesWorld).exitCode = 1
      ∧ (main emptyChoicesWorld).site = .noResponse
      ∧ (main emptyChoicesWorld).stderr
          = dotenvNotice emptyChoicesWorld ++ lit "no response from model\n"
      ∧ (main emptyChoicesWorld).stdout = [])
    ∧ ∀ v : World, (main v).site ≠ .panicked ∧ (main v).exitCode ≠ 2 :=
  empty_choices_is_an_error emptyChoicesWorld (builtRequest emptyChoicesWorld) _ _
    (by decide) rfl rfl rfl rfl

/-- Claim C7.  When the transport answers the request of the run with status
200 and the decoder fails on the body, the run exits with code 1 at the
decode error, standard error holds the decode message with the decoder's
error, standard output is empty, and the empty-response error is not
reported. -/
theorem decode_failure_is_reported (w : World) (req : HttpRequest) (resp : HttpResponse)
    (cause : GoString)
    (hsent : req ∈ (main w).sent) (hdo : w.clientDo theClient req = .ok resp)
    (h200 : resp.StatusCode = 200) (hdec : w.jsonDecode resp.Body = .error cause) :
    (main w).exitCode = 1
    ∧ (main w).site = .decodeFailed
    ∧ (main w).stderr = dotenvNotice w ++ (lit "failed to decode response: " ++ cause ++ lit "\n")
    ∧ (main w).stdout = []
    ∧ (main w).site ≠ .noResponse := by
  obtain ⟨rfl, hkey, hargs⟩ := sent_cases w req hsent
  rw [main_eq, if_neg hkey, if_neg (by omega)]
  simp [hdo, h200, hdec]

set_option maxRecDepth 100000 in
/-- Witness for C7: the mocked endpoint that answers with a non-JSON body. -/
theorem decode_failure_is_reported_witness :
    (main notJsonWorld).exitCode = 1
    ∧ (main notJsonWorld).site = .decodeFailed
    ∧ (main notJsonWorld).stderr = dotenvNotice notJsonWorld
        ++ (lit "failed to decode response: "
          ++ lit "invalid character \x27o\x27 looking for beginning of value" ++ lit "\n")
    ∧ (main notJsonWorld).stdout = []
    ∧ (main notJsonWorld).site ≠ .noResponse :=
  decode_failure_is_reported notJsonWorld (builtRequest notJsonWorld) _ _
    (by decide) rfl rfl rfl

/-- Claim C9.  Every run ends with exit code 0 or 1.  On exit code 0 the run
reached the end of `main` and standard output is the content of the first
choice of the decoded reply followed by a newline; on exit code 1 the run
ended at one of the error exits, standard output is empty and standard error
is not. -/
theorem exit_code_and_stdout_agree (w : World) :
    ((main w).exitCode = 0 ∨ (main w).exitCode = 1)
    ∧ ((main w).exitCode = 0 →
        (main w).site = .returned
        ∧ ∃ req resp res choice, req ∈ (main w).sent
            ∧ w.clientDo theClient req = .ok resp ∧ resp.StatusCode = 200
            ∧ w.jsonDecode resp.Body = .ok res ∧ res.Choices.head? = some choice
            ∧ (main w).stdout = choice.Message.Content ++ lit "\n")
    ∧ ((main w).exitCode = 1 →
        (main w).stdout = [] ∧ (main w).stderr ≠ []
        ∧ (main w).site ∈ [ExitSite.keyNotSet, ExitSite.usage, ExitSite.requestFailed,
            ExitSite.apiError, ExitSite.decodeFailed, ExitSite.noResponse]) := by
  rw [main_eq]
  split_ifs with h1 h2
  · simp [lit]
  · simp [lit]
  · cases hdo : w.clientDo theClient (builtRequest w) with
    | error err => simp [lit]
    | ok resp =>
      simp only
      split_ifs with h3
      · simp [lit]
      · cases hdec : w.jsonDecode resp.Body with
        | error err => simp [lit]
        | ok res =>
          simp only
          split
          · simp [lit]
          · rename_i choice others hch
            refine ⟨Or.inl rfl, fun _ => ⟨rfl, builtRequest w, resp, res, choice, ?_, hdo, ?_,
              hdec, ?_, rfl⟩, fun h => absurd h (by simp)⟩
            · simp
            · simpa using h3
            · simp [hch]

set_option maxRecDepth 100000 in
/-- Counterexample to C10 as stated: `chatgpt-cli ""` with a key set performs
the network call, and the prompt carried by the request is the empty
string. -/
theorem empty_prompt_is_sent :
    ∃ req, req ∈ (main emptyArgWorld).sent
      ∧ jsonMarshal (requestFor []) = .ok req.Body
      ∧ req.Body = lit
        "\x7b\"model\":\"gpt-4o-mini\",\"messages\":[\x7b\"role\":\"user\",\"content\":\"\"\x7d]\x7d" :=
  ⟨builtRequest emptyArgWorld, by decide, rfl, by decide⟩

/-- Claim C10, amended.  Every run that performs the network call has at
least one prompt argument, its request carries the arguments joined by single
spaces, and that prompt is non-empty exactly if some argument is non-empty or
there are at least two arguments. -/
theorem sent_prompt_nonempty_iff (w : World) (req : HttpRequest)
    (hsent : req ∈ (main w).sent) :
    ∃ prog promptArgs, w.Args = prog :: promptArgs ∧ promptArgs ≠ []
      ∧ jsonMarshal (requestFor (stringsJoin promptArgs (lit " "))) = .ok req.Body
      ∧ (stringsJoin promptArgs (lit " ") ≠ [] ↔
          (∃ a ∈ promptArgs, a ≠ []) ∨ 2 ≤ promptArgs.length) := by
  obtain ⟨rfl, hkey, hargs⟩ := sent_cases w req hsent
  match hw : w.Args, hargs with
  | prog :: a :: more, _ =>
    refine ⟨prog, a :: more, rfl, by simp, ?_, ?_⟩
    · simp [jsonMarshal, requestFor, builtRequest, hw]
    · cases more with
      | nil => simp [stringsJoin]
      | cons b t =>
        rw [stringsJoin_eq_intercalate, intercalate_cons_cons]
        simp [lit]

set_option maxRecDepth 100000 in
/-- Witness for the amended C10: `chatgpt-cli Say hello`. -/
theorem sent_prompt_nonempty_iff_witness :
    ∃ prog promptArgs, helloWorld.Args = prog :: promptArgs ∧ promptArgs ≠ []
      ∧ jsonMarshal (requestFor (stringsJoin promptArgs (lit " ")))
          = .ok (builtRequest helloWorld).Body
      ∧ (stringsJoin promptArgs (lit " ") ≠ [] ↔
          (∃ a ∈ promptArgs, a ≠ []) ∨ 2 ≤ promptArgs.length) :=
  sent_prompt_nonempty_iff helloWorld (builtRequest helloWorld) (by decide)


/-! ## The claim about the serialization round trip -/

/-- Counterexample to C8 as stated: the prompt consisting of the single byte
`0xFF` (not valid UTF-8) is serialized as the escape of U+FFFD, and decoding
the body yields the three bytes `EF BF BD`, not the original prompt. -/
theorem invalid_utf8_prompt_is_replaced :
    roundTrip [0xFF] = some (requestFor [0xEF, 0xBF, 0xBD])
      ∧ roundTrip [0xFF] ≠ some (requestFor [0xFF]) := by
  decide

/-- Claim C8, amended.  For every prompt that is well-formed UTF-8, decoding
the serialized request yields a structure whose model is the fixed model
identifier and whose messages list has exactly one element, with role
`user` and content equal to the prompt. -/
theorem round_trip_of_valid_utf8 (prompt : GoString) (hv : validUTF8 prompt = true) :
    ∃ req msg, roundTrip prompt = some req ∧ req.Model = model ∧ req.Messages = [msg]
      ∧ msg.Role = lit "user" ∧ msg.Content = prompt := by
  refine ⟨requestFor prompt, { Role := lit "user", Content := prompt }, ?_, rfl, rfl, rfl, rfl⟩
  unfold roundTrip requestFor
  rw [jsonMarshal_eq]
  exact jsonUnmarshal_jsonMarshal model (lit "user") prompt (by decide) (by decide) hv

/-- Witness for the amended C8: the prompt `hé` followed by U+2028 and an
emoji, `68 C3 A9 E2 80 A8 F0 9F 98 80`. -/
theorem round_trip_of_valid_utf8_witness :
    ∃ req msg, roundTrip [0x68, 0xC3, 0xA9, 0xE2, 0x80, 0xA8, 0xF0, 0x9F, 0x98, 0x80] = some req
      ∧ req.Model = model ∧ req.Messages = [msg] ∧ msg.Role = lit "user"
      ∧ msg.Content = [0x68, 0xC3, 0xA9, 0xE2, 0x80, 0xA8, 0xF0, 0x9F, 0x98, 0x80] :=
  round_trip_of_valid_utf8 [0x68, 0xC3, 0xA9, 0xE2, 0x80, 0xA8, 0xF0, 0x9F, 0x98, 0x80]
    (by decide)

end ChatGptCli
